import Mathlib

/-!
# Verification development for `sogko/config`

Shallow embedding of `config.go` (package `config`): the path resolution of
`GetConfigPath`, the cached loader `Load` / `Reload` / `load`, and the
`Config.Save` / `Config.WriteConfig` methods.

Go strings are embedded as `String`; the only bytes the path code inspects are
the ASCII characters `/` and `.`, which never occur inside a multi-byte UTF-8
sequence, so working on characters instead of bytes does not change any result.
-/

namespace SogkoConfig

/-! ## Go error values -/

/-- Go `error` values: a plain error carrying a message, or the value built by
`fmt.Errorf` with a `%w` verb, which keeps the wrapped error. -/
inductive GoError where
  | errorString (msg : String)
  | wrapError (msg : String) (err : GoError)
  deriving DecidableEq, Repr

/-- The `Error()` method. -/
def GoError.Error : GoError → String
  | .errorString msg => msg
  | .wrapError msg _ => msg

/-- The `Unwrap()` method (`errors.Unwrap`). -/
def GoError.Unwrap : GoError → Option GoError
  | .errorString _ => none
  | .wrapError _ err => some err

/-- The call `fmt.Errorf(context + "%w", err)`: the message is the context
followed by the message of `err`, and `err` is kept as the wrapped error. -/
def Errorf (context : String) (err : GoError) : GoError :=
  .wrapError (context ++ err.Error) err

/-! ## Package `strings` and package `path` -/

/-- Go `strings.HasPrefix(s, pre)`. -/
def HasPrefix (s pre : String) : Bool :=
  pre.data.isPrefixOf s.data

/-- Inner loop of the `..` case of `path.Clean`:
`for out.w > dotdot && out.index(out.w) != '/' { out.w-- }`,
started at the already decremented write index. `buf` is the content of the
output buffer before the backtrack. -/
def backtrack (buf : List Char) (dotdot : Nat) : Nat → Nat
  | 0 => 0
  | w + 1 =>
    if w + 1 > dotdot ∧ buf.getD (w + 1) '/' ≠ '/' then backtrack buf dotdot w else w + 1

/-- Main loop `for r < n { switch ... }` of `path.Clean`. The loop only looks
forward from `r`, so the state is the unread rest of the path, the output
written so far (`out.w` is its length) and `dotdot`. Every iteration consumes
at least one byte; `fuel` bounds the number of iterations. -/
def cleanLoop (rooted : Bool) : Nat → List Char → List Char → Nat → List Char
  | 0, _, out, _ => out
  | _ + 1, [], out, _ => out
  | fuel + 1, c :: rest, out, dotdot =>
    if c = '/' then
      -- empty path element
      cleanLoop rooted fuel rest out dotdot
    else if c = '.' ∧ (rest = [] ∨ rest.head? = some '/') then
      -- . element
      cleanLoop rooted fuel rest out dotdot
    else if c = '.' ∧ rest.head? = some '.' ∧
        (rest.tail = [] ∨ rest.tail.head? = some '/') then
      -- .. element: remove to last /
      if out.length > dotdot then
        cleanLoop rooted fuel rest.tail
          (out.take (backtrack out dotdot (out.length - 1))) dotdot
      else if rooted = false then
        let out1 := if out.length > 0 then out ++ ['/'] else out
        let out2 := out1 ++ ['.', '.']
        cleanLoop rooted fuel rest.tail out2 out2.length
      else
        cleanLoop rooted fuel rest.tail out dotdot
    else
      -- real path element: add slash if needed, copy element
      let out1 :=
        if (rooted = true ∧ out.length ≠ 1) ∨ (rooted = false ∧ out.length ≠ 0)
        then out ++ ['/'] else out
      cleanLoop rooted fuel (rest.dropWhile (fun b => b ≠ '/'))
        (out1 ++ c :: rest.takeWhile (fun b => b ≠ '/')) dotdot

/-- Go `path.Clean`. -/
def Clean (path : String) : String :=
  if path = "" then "."
  else
    let n := path.data.length
    let out :=
      if path.data.head? = some '/' then cleanLoop true n path.data.tail ['/'] 1
      else cleanLoop false n path.data [] 0
    -- Turn empty string into "."
    if out.length = 0 then "." else String.mk out

/-- The buffer built by `path.Join` before cleaning: empty leading elements are
skipped, later elements are appended after a `/`. -/
def joinBuf : List Char → List String → List Char
  | buf, [] => buf
  | buf, e :: elem =>
    if buf.length > 0 ∨ e ≠ "" then
      joinBuf ((if buf.length > 0 then buf ++ ['/'] else buf) ++ e.data) elem
    else joinBuf buf elem

/-- Go `path.Join`. -/
def Join (elem : List String) : String :=
  if (elem.map (fun e => e.data.length)).sum = 0 then ""
  else Clean (String.mk (joinBuf [] elem))

/-! ## The imported packages and the process state -/

/-- The calls `config.go` makes on the package-level viper instance that
change it or touch the file system, in the order they are made. -/
inductive ViperCall (ν : Type) where
  | AutomaticEnv
  | SetEnvKeyReplacer (oldnew : List String)
  | SetEnvPrefix (s : String)
  | SetTypeByDefaultValue (enable : Bool)
  | RegisterAlias (name key : String)
  | SetDefault (key : String) (value : String)
  | SetConfigFile (path : String)
  | ReadInConfig
  | Set (key : String) (value : ν)
  | WriteConfig

/-- The functions `config.go` imports from `strings` and from
`github.com/spf13/viper`, taken as parameters; `σ` is the state of the
package-level viper instance (the one `viper.GetViper()` returns) and `ν` the
type of the `interface{}` values it stores. `SetDefault` is only ever called
with a string. Functions that return an `error` return `none` for `nil`. -/
structure Imports (σ ν : Type) where
  ToLower : String → String
  AutomaticEnv : σ → σ
  SetEnvKeyReplacer : List String → σ → σ
  SetEnvPrefix : String → σ → σ
  SetTypeByDefaultValue : Bool → σ → σ
  RegisterAlias : String → String → σ → σ
  SetDefault : String → String → σ → σ
  SetConfigFile : String → σ → σ
  ReadInConfig : σ → σ × Option GoError
  Get : σ → String → ν
  GetString : σ → String → String
  Set : String → ν → σ → σ
  WriteConfig : σ → σ × Option GoError

/-- A `*Config` obtained from `&Config{Viper: viper.GetViper()}`. Its `Viper`
field always points to the package-level viper instance, so a `Config` is
identified by the address of its allocation. -/
structure Config where
  addr : Nat
  deriving DecidableEq, Repr

/-- How a call ends: it returns a value, or it panics with an error. -/
inductive Outcome (α : Type) where
  | returned (a : α)
  | panicked (err : GoError)
  deriving DecidableEq

/-- Process state seen by `config.go`: the package-level viper instance, the
package variable `cfg` (`none` is `nil`), the number of `Config` values
allocated so far, the result `os.Getwd()` gives, and the viper calls made. -/
structure World (σ ν : Type) where
  viper : σ
  cfg : Option Config
  allocated : Nat
  getwd : Except GoError String
  trace : List (ViperCall ν)

/-- One call on the package-level viper instance that only updates it. -/
def World.invoke {σ ν : Type} (w : World σ ν) (call : ViperCall ν) (f : σ → σ) :
    World σ ν :=
  { w with viper := f w.viper, trace := w.trace ++ [call] }

/-- One call on the package-level viper instance that returns an `error`. -/
def World.invokeErr {σ ν : Type} (w : World σ ν) (call : ViperCall ν)
    (f : σ → σ × Option GoError) : World σ ν × Option GoError :=
  ({ w with viper := (f w.viper).1, trace := w.trace ++ [call] }, (f w.viper).2)

/-! ## `config.go` -/

/-- The constant `keyEnvPrefix`. -/
def keyEnvPrefix : String := "env_prefix"

/-- The constant `keyEnv`. -/
def keyEnv : String := "env"

/-- The constant `keyConfig`. -/
def keyConfig : String := "config"

/-- The function `GetConfigPath`. -/
def GetConfigPath {σ ν : Type} (lib : Imports σ ν) (w : World σ ν) : Outcome String :=
  match w.getwd with
  | .error err => .panicked (Errorf "failed to get current working directory: " err)
  | .ok rootPath =>
    -- setting the config path via environment variable
    let p := lib.GetString w.viper keyConfig
    if p ≠ "" then
      -- absolute path
      if HasPrefix p "/" then .returned p
      -- relative path
      else .returned (Join [rootPath, p])
    else
      -- setting the config path via convention
      let env := lib.GetString w.viper keyEnv
      let env := if env = "" then "dev" else env
      let p := "./config." ++ env ++ ".json"
      .returned (Join [rootPath, p])

/-- The function `load`. -/
def load {σ ν : Type} (lib : Imports σ ν) (w : World σ ν) : World σ ν × Outcome Config :=
  -- Prepare environment variable configuration
  let w := w.invoke .AutomaticEnv lib.AutomaticEnv
  let w := w.invoke (.SetEnvKeyReplacer [".", "_"]) (lib.SetEnvKeyReplacer [".", "_"])
  let p := lib.ToLower (lib.GetString w.viper keyEnvPrefix)
  let w := w.invoke (.SetEnvPrefix p) (lib.SetEnvPrefix p)
  let w := w.invoke (.SetTypeByDefaultValue true) (lib.SetTypeByDefaultValue true)
  -- Register key aliases
  let w := w.invoke (.RegisterAlias "environment" "env") (lib.RegisterAlias "environment" "env")
  -- Set defaults
  let w := w.invoke (.SetDefault keyEnv "") (lib.SetDefault keyEnv "")
  let w := w.invoke (.SetDefault keyConfig "") (lib.SetDefault keyConfig "")
  -- Load config file
  match GetConfigPath lib w with
  | .panicked err => (w, .panicked err)
  | .returned path =>
    let w := w.invoke (.SetConfigFile path) (lib.SetConfigFile path)
    match w.invokeErr .ReadInConfig lib.ReadInConfig with
    | (w, some err) =>
      (w, .panicked (Errorf "failed to read config file, ensure that it exists: " err))
    | (w, none) =>
      let c : Config := { addr := w.allocated }
      ({ w with cfg := some c, allocated := w.allocated + 1 }, .returned c)

/-- The function `Load`. -/
def Load {σ ν : Type} (lib : Imports σ ν) (w : World σ ν) : World σ ν × Outcome Config :=
  match w.cfg with
  | some c => (w, .returned c)
  | none => load lib w

/-- The function `Reload`. -/
def Reload {σ ν : Type} (lib : Imports σ ν) (w : World σ ν) : World σ ν × Outcome Config :=
  load lib w

/-- The method `(*Config).WriteConfig`. -/
def Config.WriteConfig {σ ν : Type} (lib : Imports σ ν) (_c : Config) (w : World σ ν) :
    World σ ν × Option GoError :=
  match w.invokeErr .WriteConfig lib.WriteConfig with
  | (w, some err) => (w, some (Errorf "failed to write changes to config file: " err))
  | (w, none) => (w, none)

/-- The method `(*Config).Save`. -/
def Config.Save {σ ν : Type} (lib : Imports σ ν) (c : Config) (key : String) (val : ν)
    (w : World σ ν) : World σ ν × Option GoError :=
  let w := w.invoke (.Set key val) (lib.Set key val)
  c.WriteConfig lib w

/-- The state in which `load` calls `GetConfigPath`: the incoming state after
the seven configuration calls that open `load`. -/
def configured {σ ν : Type} (lib : Imports σ ν) (w : World σ ν) : World σ ν :=
  let w := w.invoke .AutomaticEnv lib.AutomaticEnv
  let w := w.invoke (.SetEnvKeyReplacer [".", "_"]) (lib.SetEnvKeyReplacer [".", "_"])
  let p := lib.ToLower (lib.GetString w.viper keyEnvPrefix)
  let w := w.invoke (.SetEnvPrefix p) (lib.SetEnvPrefix p)
  let w := w.invoke (.SetTypeByDefaultValue true) (lib.SetTypeByDefaultValue true)
  let w := w.invoke (.RegisterAlias "environment" "env") (lib.RegisterAlias "environment" "env")
  let w := w.invoke (.SetDefault keyEnv "") (lib.SetDefault keyEnv "")
  w.invoke (.SetDefault keyConfig "") (lib.SetDefault keyConfig "")

/-- The state in which `load` calls `ReadInConfig`, given the resolved path. -/
def beforeRead {σ ν : Type} (lib : Imports σ ν) (w : World σ ν) (path : String) : World σ ν :=
  (configured lib w).invoke (.SetConfigFile path) (lib.SetConfigFile path)

/-- Whether a call is a read of the config file. -/
def ViperCall.isRead {ν : Type} : ViperCall ν → Bool
  | .ReadInConfig => true
  | _ => false

/-- Number of config file reads made so far. -/
def World.fileReads {σ ν : Type} (w : World σ ν) : Nat :=
  w.trace.countP ViperCall.isRead

/-! ## The viper instance

`github.com/spf13/viper` is an external dependency of `config.go`. The
definitions below follow the methods of `viper.Viper` that `config.go` reaches
(`viper.go`, v1), on the part of an instance's state those methods read:
the config file path, the environment settings, the alias table and the
`override`, `config` and `defaults` maps. The flag, bound-environment and
remote key/value tables stay empty in this program and are left out. -/

mutual
/-- The `interface{}` values of the model: `nil`, strings and string-keyed
maps (the shape of a decoded JSON object whose leaves are strings). -/
inductive Value where
  | nil
  | string (s : String)
  | object (m : ValueMap)
/-- A Go `map[string]interface{}` as a list of entries with distinct keys. -/
inductive ValueMap where
  | empty
  | entry (key : String) (val : Value) (rest : ValueMap)
end

deriving instance DecidableEq for Value

/-- Map index `m[key]` with the comma-ok result. -/
def ValueMap.lookup : ValueMap → String → Option Value
  | .empty, _ => none
  | .entry k v rest, key => if k = key then some v else rest.lookup key

/-- The builtin `delete(m, key)`. -/
def ValueMap.delete : ValueMap → String → ValueMap
  | .empty, _ => .empty
  | .entry k v rest, key =>
    if k = key then rest.delete key else .entry k v (rest.delete key)

/-- Map assignment `m[key] = val`. -/
def ValueMap.set (m : ValueMap) (key : String) (val : Value) : ValueMap :=
  .entry key val (m.delete key)

/-- What the operating system and the Go runtime answer: Unicode case mapping
(`strings.ToLower`, `strings.ToUpper`), `os.LookupEnv`, the result of reading
and decoding the config file at a path (extension check, read and unmarshal,
as `ReadInConfig` performs them), and the result of writing the settings to
the file at a path. -/
structure Ambient where
  ToLower : String → String
  ToUpper : String → String
  LookupEnv : String → Option String
  ReadConfig : String → Except GoError ValueMap
  WriteConfig : String → Option GoError

/-- The fields of `viper.Viper` used by the model. -/
structure Viper where
  configFile : String
  envPrefix : String
  automaticEnvApplied : Bool
  envKeyReplacer : Option (List String)
  allowEmptyEnv : Bool
  typeByDefValue : Bool
  config : ValueMap
  override : ValueMap
  defaults : ValueMap
  aliases : List (String × String)

/-- The instance `viper.New()` builds. -/
def New : Viper :=
  { configFile := "", envPrefix := "", automaticEnvApplied := false,
    envKeyReplacer := none, allowEmptyEnv := false, typeByDefValue := false,
    config := .empty, override := .empty, defaults := .empty, aliases := [] }

/-- Go `strings.Split(s, sep)` for a one-byte separator; `cur` holds the
current piece in reverse. -/
def splitAux (sep : Char) : List Char → List Char → List String
  | [], cur => [String.mk cur.reverse]
  | c :: cs, cur =>
    if c = sep then String.mk cur.reverse :: splitAux sep cs []
    else splitAux sep cs (c :: cur)

/-- Go `strings.Split(s, v.keyDelim)` with the default key delimiter `"."`. -/
def Split (s : String) : List String :=
  splitAux '.' s.data []

/-- One byte through a `strings.Replacer` built by `strings.NewReplacer` from
one-byte old/new pairs: the first pair whose old byte matches wins. -/
def replaceByte : List String → Char → Char
  | o :: n :: oldnew, c => if o.data = [c] then n.data.headD c else replaceByte oldnew c
  | _, c => c

/-- The method `Replace` of such a replacer. -/
def Replace (oldnew : List String) (s : String) : String :=
  String.mk (s.data.map (replaceByte oldnew))

/-- The function `cast.ToString` on the values of the model: a value that is
not a string converts with an error to the zero value `""`. -/
def ToString : Value → String
  | .string s => s
  | _ => ""

mutual
/-- The function `toCaseInsensitiveValue`. -/
def toCaseInsensitiveValue (lower : String → String) : Value → Value
  | .object m => .object (insensitiviseMap lower m)
  | v => v
/-- The function `insensitiviseMap` (as a copy). -/
def insensitiviseMap (lower : String → String) : ValueMap → ValueMap
  | .empty => .empty
  | .entry k v rest =>
    (insensitiviseMap lower rest).set (lower k) (toCaseInsensitiveValue lower v)
end

/-- The method `searchMap`. -/
def searchMap : ValueMap → List String → Value
  | source, [] => .object source
  | source, k :: rest =>
    match source.lookup k with
    | some next =>
      -- Fast path
      if rest = [] then next
      else
        -- Nested case
        match next with
        | .object m => searchMap m rest
        | _ => .nil
    | none => .nil

/-- The function `deepSearch` followed by the assignment
`deepestMap[lastKey] = value` its callers make, on an immutable map. -/
def deepSearchSet : ValueMap → List String → String → Value → ValueMap
  | m, [], lastKey, value => m.set lastKey value
  | m, k :: path, lastKey, value =>
    match m.lookup k with
    | some (.object m3) => m.set k (.object (deepSearchSet m3 path lastKey value))
    | _ => m.set k (.object (deepSearchSet .empty path lastKey value))

/-- The loop `for i := len(path); i > 0; i--` of `searchMapWithPathPrefixes`;
`search` is the recursive call on a nested map. -/
def prefixLoop (search : ValueMap → List String → Value) (lower : String → String)
    (source : ValueMap) (path : List String) : Nat → Value
  | 0 => .nil
  | i + 1 =>
    match source.lookup (lower (String.intercalate "." (path.take (i + 1)))) with
    | some next =>
      -- Fast path
      if i + 1 = path.length then next
      else
        -- Nested case
        match (match next with
          | .object m => search m (path.drop (i + 1))
          | _ => Value.nil) with
        | .nil => prefixLoop search lower source path i
        | val => val
    | none => prefixLoop search lower source path i

/-- The method `searchMapWithPathPrefixes`; every recursive call is on a
strictly shorter path, `fuel` bounds the depth. -/
def searchMapWithPathPrefixes (lower : String → String) :
    Nat → ValueMap → List String → Value
  | 0, _, _ => .nil
  | fuel + 1, source, path =>
    if path = [] then .object source
    else prefixLoop (searchMapWithPathPrefixes lower fuel) lower source path path.length

/-- The loop of `isPathShadowedInDeepMap`, from index `i`, for `n` more rounds. -/
def shadowedInDeepMapFrom (path : List String) (m : ValueMap) : Nat → Nat → String
  | 0, _ => ""
  | n + 1, i =>
    match searchMap m (path.take i) with
    | .nil => ""
    | .object _ => shadowedInDeepMapFrom path m n (i + 1)
    | _ => String.intercalate "." (path.take i)

/-- The method `isPathShadowedInDeepMap`. -/
def isPathShadowedInDeepMap (path : List String) (m : ValueMap) : String :=
  shadowedInDeepMapFrom path m (path.length - 1) 1

/-- The function `castMapStringToMapInterface`. -/
def castMapStringToMapInterface : List (String × String) → ValueMap
  | [] => .empty
  | (k, v) :: rest => (castMapStringToMapInterface rest).set k (.string v)

/-- The recursion of `realKey`, cut after `fuel` alias steps. -/
def realKeyAux (aliases : List (String × String)) : Nat → String → String
  | 0, key => key
  | fuel + 1, key =>
    match aliases.lookup key with
    | some newkey => realKeyAux aliases fuel newkey
    | none => key

/-- The method `realKey`: an alias chain without a cycle is no longer than the
alias table. -/
def Viper.realKey (v : Viper) (key : String) : String :=
  realKeyAux v.aliases (v.aliases.length + 1) key

/-- The method `mergeWithEnvPrefix`. -/
def Viper.mergeWithEnvPrefix (os : Ambient) (v : Viper) (key : String) : String :=
  if v.envPrefix ≠ "" then os.ToUpper (v.envPrefix ++ "_" ++ key) else os.ToUpper key

/-- The method `getEnv`; `none` is the result `ok == false`. -/
def Viper.getEnv (os : Ambient) (v : Viper) (key : String) : Option String :=
  let key := match v.envKeyReplacer with
    | some oldnew => Replace oldnew key
    | none => key
  match os.LookupEnv key with
  | some val => if v.allowEmptyEnv ∨ val ≠ "" then some val else none
  | none => none

/-- The loop of `isPathShadowedInAutoEnv`, from index `i`, for `n` more rounds. -/
def Viper.shadowedInAutoEnvFrom (os : Ambient) (v : Viper) (path : List String) :
    Nat → Nat → String
  | 0, _ => ""
  | n + 1, i =>
    match v.getEnv os (v.mergeWithEnvPrefix os (String.intercalate "." (path.take i))) with
    | some _ => String.intercalate "." (path.take i)
    | none => v.shadowedInAutoEnvFrom os path n (i + 1)

/-- The method `isPathShadowedInAutoEnv`. -/
def Viper.isPathShadowedInAutoEnv (os : Ambient) (v : Viper) (path : List String) : String :=
  v.shadowedInAutoEnvFrom os path (path.length - 1) 1

/-- The tail of `find` after the environment: config file, then defaults. -/
def Viper.findInConfig (os : Ambient) (v : Viper) (path : List String) : Value :=
  -- Config file next
  match searchMapWithPathPrefixes os.ToLower (path.length + 1) v.config path with
  | .nil =>
    if path.length > 1 ∧ isPathShadowedInDeepMap path v.config ≠ "" then .nil
    else
      -- Default next
      searchMap v.defaults path
  | val => val

/-- The method `find`: explicit `Set` overrides first, then the automatic
environment, then the config file, then the defaults. -/
def Viper.find (os : Ambient) (v : Viper) (lcaseKey : String) : Value :=
  -- compute the path through the nested maps to the nested value
  if (Split lcaseKey).length > 1 ∧
      isPathShadowedInDeepMap (Split lcaseKey) (castMapStringToMapInterface v.aliases) ≠ ""
  then .nil
  else
    -- if the requested key is an alias, then return the proper key
    let lcaseKey := v.realKey lcaseKey
    let path := Split lcaseKey
    -- Set() override first
    match searchMap v.override path with
    | .nil =>
      if path.length > 1 ∧ isPathShadowedInDeepMap path v.override ≠ "" then .nil
      else if v.automaticEnvApplied = true then
        -- Env override next
        match v.getEnv os (v.mergeWithEnvPrefix os lcaseKey) with
        | some val => .string val
        | none =>
          if path.length > 1 ∧ v.isPathShadowedInAutoEnv os path ≠ "" then .nil
          else v.findInConfig os path
      else v.findInConfig os path
    | val => val

/-- The method `Get`. -/
def Viper.Get (os : Ambient) (v : Viper) (key : String) : Value :=
  let lcaseKey := os.ToLower key
  match v.find os lcaseKey with
  | .nil => .nil
  | val =>
    if v.typeByDefValue = true then
      let valType := match searchMap v.defaults (Split lcaseKey) with
        | .nil => val
        | defVal => defVal
      match valType with
      | .string _ => .string (ToString val)
      | _ => val
    else val

/-- The method `GetString`. -/
def Viper.GetString (os : Ambient) (v : Viper) (key : String) : String :=
  ToString (v.Get os key)

/-- The method `AutomaticEnv`. -/
def Viper.AutomaticEnv (v : Viper) : Viper :=
  { v with automaticEnvApplied := true }

/-- The method `SetEnvKeyReplacer`, given the arguments of `strings.NewReplacer`. -/
def Viper.SetEnvKeyReplacer (oldnew : List String) (v : Viper) : Viper :=
  { v with envKeyReplacer := some oldnew }

/-- The method `SetEnvPrefix`. -/
def Viper.SetEnvPrefix (s : String) (v : Viper) : Viper :=
  if s ≠ "" then { v with envPrefix := s } else v

/-- The method `SetTypeByDefaultValue`. -/
def Viper.SetTypeByDefaultValue (enable : Bool) (v : Viper) : Viper :=
  { v with typeByDefValue := enable }

/-- The step `if val, ok := m[alias]; ok { delete(m, alias); m[key] = val }` of
`registerAlias`. -/
def moveKey (m : ValueMap) (name key : String) : ValueMap :=
  match m.lookup name with
  | some val => (m.delete name).set key val
  | none => m

/-- The method `RegisterAlias`. -/
def Viper.RegisterAlias (os : Ambient) (name key : String) (v : Viper) : Viper :=
  let key := os.ToLower key
  let name := os.ToLower name
  if name ≠ key ∧ name ≠ v.realKey key then
    if (v.aliases.lookup name).isSome then v
    else
      { v with
        config := moveKey v.config name key
        defaults := moveKey v.defaults name key
        override := moveKey v.override name key
        aliases := (name, key) :: v.aliases }
  else v

/-- The method `SetDefault`. -/
def Viper.SetDefault (os : Ambient) (key : String) (value : Value) (v : Viper) : Viper :=
  -- If alias passed in, then set the proper default
  let key := v.realKey (os.ToLower key)
  let value := toCaseInsensitiveValue os.ToLower value
  let path := Split key
  let lastKey := os.ToLower (path.getLastD "")
  { v with defaults := deepSearchSet v.defaults path.dropLast lastKey value }

/-- The method `Set`. -/
def Viper.Set (os : Ambient) (key : String) (value : Value) (v : Viper) : Viper :=
  -- If alias passed in, then set the proper override
  let key := v.realKey (os.ToLower key)
  let value := toCaseInsensitiveValue os.ToLower value
  let path := Split key
  let lastKey := os.ToLower (path.getLastD "")
  { v with override := deepSearchSet v.override path.dropLast lastKey value }

/-- The method `SetConfigFile`. -/
def Viper.SetConfigFile (s : String) (v : Viper) : Viper :=
  if s ≠ "" then { v with configFile := s } else v

/-- The method `getConfigFile`. Without an explicit config file viper searches
its config paths, of which this program registers none. -/
def Viper.getConfigFile (v : Viper) : Except GoError String :=
  if v.configFile = "" then
    .error (.errorString "Config File \"config\" Not Found in \"[]\"")
  else .ok v.configFile

/-- The method `ReadInConfig`. -/
def Viper.ReadInConfig (os : Ambient) (v : Viper) : Viper × Option GoError :=
  match v.getConfigFile with
  | .error err => (v, some err)
  | .ok filename =>
    match os.ReadConfig filename with
    | .error err => (v, some err)
    | .ok config => ({ v with config := insensitiviseMap os.ToLower config }, none)

/-- The method `WriteConfig`. -/
def Viper.WriteConfig (os : Ambient) (v : Viper) : Viper × Option GoError :=
  match v.getConfigFile with
  | .error err => (v, some err)
  | .ok filename => (v, os.WriteConfig filename)

/-- The viper package functions of `config.go`, acting on a modelled instance. -/
def viperLib (os : Ambient) : Imports Viper Value :=
  { ToLower := os.ToLower
    AutomaticEnv := Viper.AutomaticEnv
    SetEnvKeyReplacer := Viper.SetEnvKeyReplacer
    SetEnvPrefix := Viper.SetEnvPrefix
    SetTypeByDefaultValue := Viper.SetTypeByDefaultValue
    RegisterAlias := Viper.RegisterAlias os
    SetDefault := fun key value => Viper.SetDefault os key (.string value)
    SetConfigFile := Viper.SetConfigFile
    ReadInConfig := Viper.ReadInConfig os
    Get := Viper.Get os
    GetString := Viper.GetString os
    Set := Viper.Set os
    WriteConfig := Viper.WriteConfig os }

/-- The name of the environment variable `find` looks up for `key` under
`AutomaticEnv`, with the replacer `oldnew` installed: the stored name of the
key (lower-cased, aliases resolved), merged with the prefix, upper-cased, then
passed through the replacer. -/
def Viper.envName (os : Ambient) (v : Viper) (oldnew : List String) (key : String) : String :=
  Replace oldnew (v.mergeWithEnvPrefix os (v.realKey (os.ToLower key)))

/-- Neither the alias table nor a value stored by `Set` answers or hides
`key`: `find` goes on to the environment. -/
def Viper.unshadowed (os : Ambient) (v : Viper) (key : String) : Prop :=
  ¬ ((Split (os.ToLower key)).length > 1 ∧
      isPathShadowedInDeepMap (Split (os.ToLower key))
        (castMapStringToMapInterface v.aliases) ≠ "") ∧
    searchMap v.override (Split (v.realKey (os.ToLower key))) = .nil ∧
    ¬ ((Split (v.realKey (os.ToLower key))).length > 1 ∧
      isPathShadowedInDeepMap (Split (v.realKey (os.ToLower key))) v.override ≠ "")

/-- Process state at start-up: a fresh viper instance, `cfg` is `nil`. -/
def startWorld (getwd : Except GoError String) : World Viper Value :=
  { viper := New, cfg := none, allocated := 0, getwd := getwd, trace := [] }

/-- Go `strings.ToLower` on ASCII text. -/
def asciiToLower (s : String) : String :=
  String.mk (s.data.map Char.toLower)

/-- Go `strings.ToUpper` on ASCII text. -/
def asciiToUpper (s : String) : String :=
  String.mk (s.data.map Char.toUpper)

/-- A concrete surrounding system: the environment variables `environ`, the
decoded content of the config files `files` (any other path cannot be read),
and writes that succeed exactly on the paths in `writable`. -/
def system (environ : List (String × String)) (files : List (String × ValueMap))
    (writable : List String) : Ambient :=
  { ToLower := asciiToLower
    ToUpper := asciiToUpper
    LookupEnv := fun name => environ.lookup name
    ReadConfig := fun path =>
      match files.lookup path with
      | some content => .ok content
      | none => .error (.errorString ("open " ++ path ++ ": no such file or directory"))
    WriteConfig := fun path =>
      if path ∈ writable then none
      else some (.errorString ("open " ++ path ++ ": permission denied")) }

/-- A process state in directory `cwd` whose viper instance is fresh except
that `AutomaticEnv` has been called on it. -/
def envWorld (cwd : String) : World Viper Value :=
  { viper := New.AutomaticEnv, cfg := none, allocated := 0, getwd := .ok cwd, trace := [] }

/-- Content of an example config file: `{"foo": "baz"}`. -/
def fooBaz : ValueMap :=
  .entry "foo" (.string "baz") .empty

/-- An example system: `ENV_PREFIX=nhm` and `NHM_FOO=bar` in the environment,
a readable and writable `/app/config.dev.json` holding `{"foo": "baz"}`. -/
def exampleSystem : Ambient :=
  system [("ENV_PREFIX", "nhm"), ("NHM_FOO", "bar")] [("/app/config.dev.json", fooBaz)]
    ["/app/config.dev.json"]

/-- The process state of the example at start-up, in directory `/app`. -/
def exampleStart : World Viper Value :=
  startWorld (.ok "/app")

/-- Content of an example config file: `{"env_prefix": "other"}`. -/
def prefixOther : ValueMap :=
  .entry "env_prefix" (.string "other") .empty

/-- An example system with no environment variables and a readable
`/app/config.dev.json` holding `{"foo": "baz"}`; `writable` says whether the
file can be written. -/
def plainSystem (writable : Bool) : Ambient :=
  system [] [("/app/config.dev.json", fooBaz)]
    (if writable then ["/app/config.dev.json"] else [])

/-! ## Results -/

section Loader

variable {σ ν : Type}

theorem load_eq (lib : Imports σ ν) (w : World σ ν) :
    load lib w =
      match GetConfigPath lib (configured lib w) with
      | .panicked err => (configured lib w, .panicked err)
      | .returned path =>
        match (lib.ReadInConfig (beforeRead lib w path).viper).2 with
        | some err =>
          ({ beforeRead lib w path with
              viper := (lib.ReadInConfig (beforeRead lib w path).viper).1
              trace := (beforeRead lib w path).trace ++ [.ReadInConfig] },
            .panicked (Errorf "failed to read config file, ensure that it exists: " err))
        | none =>
          ({ beforeRead lib w path with
              viper := (lib.ReadInConfig (beforeRead lib w path).viper).1
              trace := (beforeRead lib w path).trace ++ [.ReadInConfig]
              cfg := some { addr := (beforeRead lib w path).allocated }
              allocated := (beforeRead lib w path).allocated + 1 },
            .returned { addr := (beforeRead lib w path).allocated }) := by
  have key : load lib w =
      (match GetConfigPath lib (configured lib w) with
      | .panicked err => (configured lib w, .panicked err)
      | .returned path =>
        match (beforeRead lib w path).invokeErr .ReadInConfig lib.ReadInConfig with
        | (w, some err) =>
          (w, .panicked (Errorf "failed to read config file, ensure that it exists: " err))
        | (w, none) =>
          ({ w with cfg := some { addr := w.allocated }, allocated := w.allocated + 1 },
            .returned { addr := w.allocated })) := rfl
  rw [key]
  cases GetConfigPath lib (configured lib w) with
  | panicked err => rfl
  | returned path =>
    dsimp only [World.invokeErr]
    generalize beforeRead lib w path = b
    cases h : (lib.ReadInConfig b.viper).2 <;> rfl

theorem configured_trace (lib : Imports σ ν) (w : World σ ν) :
    (configured lib w).trace = w.trace ++
      [.AutomaticEnv, .SetEnvKeyReplacer [".", "_"],
        .SetEnvPrefix (lib.ToLower (lib.GetString
          (lib.SetEnvKeyReplacer [".", "_"] (lib.AutomaticEnv w.viper)) keyEnvPrefix)),
        .SetTypeByDefaultValue true, .RegisterAlias "environment" "env",
        .SetDefault keyEnv "", .SetDefault keyConfig ""] := by
  simp [configured, World.invoke]

theorem beforeRead_fileReads (lib : Imports σ ν) (w : World σ ν) (path : String) :
    (beforeRead lib w path).fileReads = w.fileReads := by
  simp [World.fileReads, beforeRead, World.invoke, configured_trace, List.countP_append,
    List.countP_cons, ViperCall.isRead]

/-- What a full load does when the working directory is known and the config
file is read without error. -/
theorem load_of_read_ok (lib : Imports σ ν) (w : World σ ν) (path : String)
    (hpath : GetConfigPath lib (configured lib w) = .returned path)
    (hread : (lib.ReadInConfig (beforeRead lib w path).viper).2 = none) :
    load lib w =
      ({ beforeRead lib w path with
          viper := (lib.ReadInConfig (beforeRead lib w path).viper).1
          trace := (beforeRead lib w path).trace ++ [.ReadInConfig]
          cfg := some { addr := w.allocated }
          allocated := w.allocated + 1 },
        .returned { addr := w.allocated }) := by
  rw [load_eq, hpath]
  simp only [hread]
  rfl

/-- What a full load does when the working directory is known and the read of
the config file fails. -/
theorem load_of_read_error (lib : Imports σ ν) (w : World σ ν) (path : String) (err : GoError)
    (hpath : GetConfigPath lib (configured lib w) = .returned path)
    (hread : (lib.ReadInConfig (beforeRead lib w path).viper).2 = some err) :
    load lib w =
      ({ beforeRead lib w path with
          viper := (lib.ReadInConfig (beforeRead lib w path).viper).1
          trace := (beforeRead lib w path).trace ++ [.ReadInConfig] },
        .panicked (Errorf "failed to read config file, ensure that it exists: " err)) := by
  rw [load_eq, hpath]
  simp only [hread]

/-- A full load that returns has cached the `Config` it returns, and has read
the config file exactly once. -/
theorem load_returned (lib : Imports σ ν) (w w1 : World σ ν) (c : Config)
    (h : load lib w = (w1, .returned c)) :
    w1.cfg = some c ∧ c.addr = w.allocated ∧ w1.allocated = w.allocated + 1 ∧
      w1.fileReads = w.fileReads + 1 := by
  rw [load_eq] at h
  cases hp : GetConfigPath lib (configured lib w) with
  | panicked err => rw [hp] at h; simp at h
  | returned path =>
    rw [hp] at h
    cases hr : (lib.ReadInConfig (beforeRead lib w path).viper).2 with
    | some err => simp only [hr] at h; simp at h
    | none =>
      simp only [hr] at h
      simp only [Prod.mk.injEq, Outcome.returned.injEq] at h
      obtain ⟨h1, h2⟩ := h
      subst h1 h2
      refine ⟨rfl, rfl, rfl, ?_⟩
      have := beforeRead_fileReads lib w path
      simp only [World.fileReads] at this ⊢
      simp [List.countP_append, this, ViperCall.isRead]

/-- A full load leaves the cache as it was unless it returns. -/
theorem load_panicked (lib : Imports σ ν) (w w1 : World σ ν) (err : GoError)
    (h : load lib w = (w1, .panicked err)) : w1.cfg = w.cfg := by
  rw [load_eq] at h
  cases hp : GetConfigPath lib (configured lib w) with
  | panicked e =>
    rw [hp] at h
    simp only [Prod.mk.injEq] at h
    rw [← h.1]; rfl
  | returned path =>
    rw [hp] at h
    cases hr : (lib.ReadInConfig (beforeRead lib w path).viper).2 with
    | some e =>
      simp only [hr, Prod.mk.injEq] at h
      rw [← h.1]; rfl
    | none => simp only [hr] at h; simp at h

/-- Claim C4. `Load` on a populated cache returns the cached instance and
leaves the whole process state as it was: no call is made on the store, so
nothing is configured and no file is read, and `cfg` is unchanged. Hence,
from any state, a `Load` that returned is followed by a `Load` returning the
same instance without any change of state, and the two calls together read
the config file at most once. -/
theorem Load_cached (lib : Imports σ ν) (w : World σ ν) (c : Config)
    (h : w.cfg = some c) :
    Load lib w = (w, .returned c) ∧
      (Load lib w).1.trace = w.trace ∧ (Load lib w).1.cfg = w.cfg ∧
      (∀ (w0 w1 : World σ ν) (c1 : Config), Load lib w0 = (w1, .returned c1) →
        Load lib w1 = (w1, .returned c1) ∧
          (Load lib w1).1.fileReads ≤ w0.fileReads + 1) := by
  have hc : ∀ (u : World σ ν) (d : Config), u.cfg = some d → Load lib u = (u, .returned d) := by
    intro u d hu
    unfold Load
    rw [hu]
  refine ⟨hc w c h, ?_, ?_, ?_⟩
  · rw [hc w c h]
  · rw [hc w c h]
  · intro w0 w1 c1 h0
    cases hcfg : w0.cfg with
    | some c0 =>
      rw [hc w0 c0 hcfg] at h0
      simp only [Prod.mk.injEq, Outcome.returned.injEq] at h0
      obtain ⟨h1, h2⟩ := h0
      subst h1 h2
      rw [hc w0 c0 hcfg]
      exact ⟨rfl, Nat.le_succ _⟩
    | none =>
      have hl : load lib w0 = (w1, .returned c1) := by
        unfold Load at h0
        rw [hcfg] at h0
        exact h0
      obtain ⟨h1, _, _, h4⟩ := load_returned lib w0 w1 c1 hl
      rw [hc w1 c1 h1]
      exact ⟨rfl, le_of_eq h4⟩

/-- Claim C5. When the working directory is known and the read of the resolved
file succeeds, `Reload` runs the full load whatever the cache holds: it reads
the file once, allocates a new `Config`, stores it in `cfg` and returns it.
Every later `Load`, in any state whose `cfg` is still that value, returns
this instance; it differs from every instance allocated before. -/
theorem Reload_replaces_cache (lib : Imports σ ν) (w : World σ ν) (path : String)
    (hpath : GetConfigPath lib (configured lib w) = .returned path)
    (hread : (lib.ReadInConfig (beforeRead lib w path).viper).2 = none) :
    (Reload lib w).2 = .returned { addr := w.allocated } ∧
      (Reload lib w).1.cfg = some { addr := w.allocated } ∧
      (Reload lib w).1.fileReads = w.fileReads + 1 ∧
      (Reload lib w).1.viper = (lib.ReadInConfig (beforeRead lib w path).viper).1 ∧
      (∀ w2 : World σ ν, w2.cfg = (Reload lib w).1.cfg →
        Load lib w2 = (w2, .returned { addr := w.allocated })) ∧
      (∀ c0 : Config, c0.addr < w.allocated → c0 ≠ { addr := w.allocated }) := by
  have hl := load_of_read_ok lib w path hpath hread
  have hr := load_returned lib w _ _ hl
  unfold Reload
  rw [hl]
  refine ⟨rfl, rfl, hr.2.2.2, rfl, ?_, ?_⟩
  · intro w2 h2
    unfold Load
    rw [h2]
  · intro c0 h0 he
    rw [he] at h0
    exact Nat.lt_irrefl _ h0

/-- Claim C6. With a known working directory, a full load either fails or
succeeds as a whole. If the read of the resolved file fails with `err`,
`Reload` and `Load` on an empty cache panic with an error whose message is
`"failed to read config file, ensure that it exists: "` followed by the
message of `err` and which wraps `err`, and `cfg` is what it was. If the read
succeeds they return a `Config` and `cfg` holds it. A full load that returns
has always cached the `Config` it returns, and a full load that panics, for
whatever reason, leaves `cfg` as it was. -/
theorem load_all_or_nothing (lib : Imports σ ν) (w : World σ ν) (path : String)
    (hpath : GetConfigPath lib (configured lib w) = .returned path) :
    (∀ err : GoError, (lib.ReadInConfig (beforeRead lib w path).viper).2 = some err →
      (Reload lib w).2 =
          .panicked (Errorf "failed to read config file, ensure that it exists: " err) ∧
        (Reload lib w).1.cfg = w.cfg ∧
        (w.cfg = none → Load lib w = Reload lib w) ∧
        (Errorf "failed to read config file, ensure that it exists: " err).Error =
          "failed to read config file, ensure that it exists: " ++ err.Error ∧
        (Errorf "failed to read config file, ensure that it exists: " err).Unwrap = some err) ∧
    ((lib.ReadInConfig (beforeRead lib w path).viper).2 = none →
      ∃ c : Config, (Reload lib w).2 = .returned c ∧ (Reload lib w).1.cfg = some c ∧
        (w.cfg = none → Load lib w = Reload lib w)) ∧
    (∀ (w0 w1 : World σ ν) (c : Config), load lib w0 = (w1, .returned c) → w1.cfg = some c) ∧
    (∀ (w0 w1 : World σ ν) (err : GoError), load lib w0 = (w1, .panicked err) →
      w1.cfg = w0.cfg) := by
  have hload : w.cfg = none → Load lib w = Reload lib w := by
    intro h
    unfold Load Reload
    rw [h]
  refine ⟨?_, ?_, ?_, load_panicked lib⟩
  · intro err herr
    have hl : Reload lib w = _ := load_of_read_error lib w path err hpath herr
    rw [hl]
    exact ⟨rfl, rfl, fun h => (hload h).trans hl, rfl, rfl⟩
  · intro hok
    have hl : Reload lib w = _ := load_of_read_ok lib w path hpath hok
    rw [hl]
    exact ⟨_, rfl, rfl, fun h => (hload h).trans hl⟩
  · intro w0 w1 c h
    exact (load_returned lib w0 w1 c h).1

/-- What `Save` does, for any store: it calls `Set` and then `WriteConfig` and
nothing else, returns `nil` exactly when the write does, wraps the error of a
failed write, and leaves `cfg` alone. -/
theorem Save_calls (lib : Imports σ ν) (c : Config) (key : String) (val : ν)
    (w : World σ ν) :
    (c.Save lib key val w).1.trace = w.trace ++ [.Set key val, .WriteConfig] ∧
      (c.Save lib key val w).1.viper = (lib.WriteConfig (lib.Set key val w.viper)).1 ∧
      ((c.Save lib key val w).2 = none ↔
        (lib.WriteConfig (lib.Set key val w.viper)).2 = none) ∧
      (∀ err : GoError, (lib.WriteConfig (lib.Set key val w.viper)).2 = some err →
        (c.Save lib key val w).2 =
            some (Errorf "failed to write changes to config file: " err) ∧
          (Errorf "failed to write changes to config file: " err).Error =
            "failed to write changes to config file: " ++ err.Error ∧
          (Errorf "failed to write changes to config file: " err).Unwrap = some err) ∧
      (c.Save lib key val w).1.cfg = w.cfg := by
  have key_eq : c.Save lib key val w =
      (match (lib.WriteConfig (lib.Set key val w.viper)).2 with
      | some err =>
        ({ w with
            viper := (lib.WriteConfig (lib.Set key val w.viper)).1
            trace := (w.trace ++ [.Set key val]) ++ [.WriteConfig] },
          some (Errorf "failed to write changes to config file: " err))
      | none =>
        ({ w with
            viper := (lib.WriteConfig (lib.Set key val w.viper)).1
            trace := (w.trace ++ [.Set key val]) ++ [.WriteConfig] }, none)) := by
    unfold Config.Save Config.WriteConfig World.invokeErr World.invoke
    dsimp only
    cases (lib.WriteConfig (lib.Set key val w.viper)).2 <;> rfl
  rw [key_eq]
  cases hw : (lib.WriteConfig (lib.Set key val w.viper)).2 with
  | none =>
    refine ⟨by simp, rfl, by simp, ?_, rfl⟩
    intro err herr; simp at herr
  | some e =>
    refine ⟨by simp, rfl, by simp, ?_, rfl⟩
    intro err herr
    simp only [Option.some.injEq] at herr
    subst herr
    exact ⟨rfl, rfl, rfl⟩

theorem Load_cached_witness :
    Load (viperLib exampleSystem) (Load (viperLib exampleSystem) exampleStart).1 =
      ((Load (viperLib exampleSystem) exampleStart).1, .returned { addr := 0 }) :=
  (Load_cached (viperLib exampleSystem) (Load (viperLib exampleSystem) exampleStart).1
    { addr := 0 } (by decide)).1

theorem Reload_replaces_cache_witness :
    (Reload (viperLib exampleSystem) (Load (viperLib exampleSystem) exampleStart).1).2 =
        .returned { addr := 1 } ∧
      (Reload (viperLib exampleSystem) (Load (viperLib exampleSystem) exampleStart).1).1.cfg =
        some { addr := 1 } ∧
      (Load (viperLib exampleSystem) exampleStart).1.cfg = some { addr := 0 } :=
  ⟨(Reload_replaces_cache (viperLib exampleSystem)
      (Load (viperLib exampleSystem) exampleStart).1 "/app/config.dev.json"
      (by decide) (by decide)).1,
    (Reload_replaces_cache (viperLib exampleSystem)
      (Load (viperLib exampleSystem) exampleStart).1 "/app/config.dev.json"
      (by decide) (by decide)).2.1,
    by decide⟩

theorem load_all_or_nothing_witness :
    (Reload (viperLib (system [] [] [])) exampleStart).2 =
        .panicked (Errorf "failed to read config file, ensure that it exists: "
          (.errorString "open /app/config.dev.json: no such file or directory")) ∧
      (Reload (viperLib (system [] [] [])) exampleStart).1.cfg = none :=
  ⟨((load_all_or_nothing (viperLib (system [] [] [])) exampleStart "/app/config.dev.json"
      (by decide)).1 _ (by decide)).1,
    ((load_all_or_nothing (viperLib (system [] [] [])) exampleStart "/app/config.dev.json"
      (by decide)).1 (.errorString "open /app/config.dev.json: no such file or directory")
      (by decide)).2.1⟩

end Loader


section PathLemmas

theorem cleanLoop_nil (r : Bool) (fuel : Nat) (out : List Char) (d : Nat) :
    cleanLoop r fuel [] out d = out := by
  cases fuel <;> rfl

theorem cleanLoop_fuel (r : Bool) : ∀ (n : Nat) (rest out : List Char) (d f1 f2 : Nat),
    rest.length ≤ n → rest.length ≤ f1 → rest.length ≤ f2 →
    cleanLoop r f1 rest out d = cleanLoop r f2 rest out d := by
  intro n
  induction n with
  | zero =>
    intro rest out d f1 f2 h _ _
    have : rest = [] := List.length_eq_zero.mp (Nat.le_zero.mp h)
    subst this
    rw [cleanLoop_nil, cleanLoop_nil]
  | succ n ih =>
    intro rest out d f1 f2 h h1 h2
    cases rest with
    | nil => rw [cleanLoop_nil, cleanLoop_nil]
    | cons c t =>
      obtain ⟨g1, rfl⟩ : ∃ g, f1 = g + 1 := ⟨f1 - 1, by simp at h1; omega⟩
      obtain ⟨g2, rfl⟩ : ∃ g, f2 = g + 1 := ⟨f2 - 1, by simp at h2; omega⟩
      simp only [List.length_cons] at h h1 h2
      have ht : t.length ≤ n := by omega
      have htl : t.tail.length ≤ t.length := by simp
      have hdl : (t.dropWhile (fun b => b ≠ '/')).length ≤ t.length :=
        (List.dropWhile_suffix _).length_le
      simp only [cleanLoop]
      split_ifs
      all_goals first
        | exact ih _ _ _ _ _ ht (by omega) (by omega)
        | exact ih _ _ _ _ _ (by omega) (by omega) (by omega)


theorem backtrack_ge (buf : List Char) (d : Nat) : ∀ w : Nat, d ≤ w → d ≤ backtrack buf d w := by
  intro w
  induction w with
  | zero => intro h; simpa [backtrack] using h
  | succ w ih =>
    intro h
    unfold backtrack
    split_ifs with hc
    · exact ih (by omega)
    · exact h

theorem head?_take_succ (l : List Char) (k : Nat) (hk : 1 ≤ k) : (l.take k).head? = l.head? := by
  cases l with
  | nil => simp
  | cons x t =>
    obtain ⟨j, rfl⟩ : ∃ j, k = j + 1 := ⟨k - 1, by omega⟩
    simp

theorem cleanLoop_rooted : ∀ (fuel : Nat) (rest out : List Char),
    out.head? = some '/' → (cleanLoop true fuel rest out 1).head? = some '/' := by
  intro fuel
  induction fuel with
  | zero => intro rest out h; simpa [cleanLoop] using h
  | succ fuel ih =>
    intro rest out h
    cases rest with
    | nil => simpa [cleanLoop] using h
    | cons c t =>
      have hne : out ≠ [] := by rintro rfl; simp at h
      have hcons : ∀ l : List Char, (out ++ l).head? = some '/' := by
        intro l
        cases out with
        | nil => exact absurd rfl hne
        | cons x o => simpa using h
      simp only [cleanLoop]
      split_ifs
      all_goals first
        | exact ih _ _ h
        | contradiction
        | exact ih _ _ (by
            rw [head?_take_succ _ _ (backtrack_ge _ _ _ (by omega))]
            exact h)
        | exact ih _ _ (hcons _)
        | exact ih _ _ (by rw [List.append_assoc]; exact hcons _)

theorem takeWhile_append_stop (p : Char → Bool) (x : Char) (hx : p x = false) :
    ∀ l1 l2 : List Char, (l1 ++ x :: l2).takeWhile p = l1.takeWhile p := by
  intro l1 l2
  induction l1 with
  | nil => simp [List.takeWhile, hx]
  | cons y t ih =>
    simp only [List.cons_append, List.takeWhile]
    cases p y <;> simp [ih]

theorem dropWhile_append_stop (p : Char → Bool) (x : Char) (hx : p x = false) :
    ∀ l1 l2 : List Char, (l1 ++ x :: l2).dropWhile p = l1.dropWhile p ++ x :: l2 := by
  intro l1 l2
  induction l1 with
  | nil => simp [List.dropWhile, hx]
  | cons y t ih =>
    simp only [List.cons_append, List.dropWhile]
    cases p y <;> simp [ih]

theorem cleanLoop_append_slash (d : Nat) : ∀ (n : Nat) (a b out : List Char) (f1 f2 f3 : Nat),
    a.length ≤ n → a.length + 1 + b.length ≤ f1 → a.length ≤ f2 → b.length ≤ f3 →
    cleanLoop true f1 (a ++ '/' :: b) out d = cleanLoop true f3 b (cleanLoop true f2 a out d) d := by
  intro n
  induction n with
  | zero =>
    intro a b out f1 f2 f3 h h1 _ h3
    have : a = [] := List.length_eq_zero.mp (Nat.le_zero.mp h)
    subst this
    obtain ⟨g1, rfl⟩ : ∃ g, f1 = g + 1 := ⟨f1 - 1, by simp at h1; omega⟩
    simp only [List.nil_append, cleanLoop, if_true, cleanLoop_nil]
    exact cleanLoop_fuel true b.length b out d g1 f3 le_rfl (by simp at h1; omega) h3
  | succ n ih =>
    intro a b out f1 f2 f3 h h1 h2 h3
    cases a with
    | nil =>
      obtain ⟨g1, rfl⟩ : ∃ g, f1 = g + 1 := ⟨f1 - 1, by simp at h1; omega⟩
      simp only [List.nil_append, cleanLoop, if_true, cleanLoop_nil]
      exact cleanLoop_fuel true b.length b out d g1 f3 le_rfl (by simp at h1; omega) h3
    | cons c t =>
      obtain ⟨g1, rfl⟩ : ∃ g, f1 = g + 1 := ⟨f1 - 1, by simp at h1; omega⟩
      obtain ⟨g2, rfl⟩ : ∃ g, f2 = g + 1 := ⟨f2 - 1, by simp at h2; omega⟩
      simp only [List.length_cons] at h h1 h2
      have hdl : (t.dropWhile (fun b => b ≠ '/')).length ≤ t.length :=
        (List.dropWhile_suffix _).length_le
      have hp : (fun b : Char => decide (b ≠ '/')) '/' = false := by decide
      have e1 : ((t ++ '/' :: b) = [] ∨ (t ++ '/' :: b).head? = some '/') ↔
          (t = [] ∨ t.head? = some '/') := by
        cases t <;> simp
      have e2 : (t ++ '/' :: b).head? = some '.' ↔ t.head? = some '.' := by
        cases t <;> simp
      have e3 : (t ++ '/' :: b).head? = some '.' →
          (((t ++ '/' :: b).tail = [] ∨ (t ++ '/' :: b).tail.head? = some '/') ↔
            (t.tail = [] ∨ t.tail.head? = some '/')) ∧
          (t ++ '/' :: b).tail = t.tail ++ '/' :: b := by
        intro hh
        cases t with
        | nil => simp at hh
        | cons y t2 => cases t2 <;> simp
      rw [List.cons_append]
      simp only [cleanLoop]
      by_cases c1 : c = '/'
      · simp only [c1, if_true]
        exact ih _ _ _ _ _ _ (by omega) (by omega) (by omega) h3
      · simp only [c1, if_false]
        by_cases c2 : c = '.' ∧ (t = [] ∨ t.head? = some '/')
        · rw [if_pos (by rw [e1]; exact c2), if_pos c2]
          exact ih _ _ _ _ _ _ (by omega) (by omega) (by omega) h3
        · rw [if_neg (by rw [e1]; exact c2), if_neg c2]
          by_cases c3 : c = '.' ∧ t.head? = some '.' ∧ (t.tail = [] ∨ t.tail.head? = some '/')
          · have hh : (t ++ '/' :: b).head? = some '.' := e2.mpr c3.2.1
            rw [if_pos ⟨c3.1, hh, (e3 hh).1.mpr c3.2.2⟩, if_pos c3, (e3 hh).2]
            have htl : t.tail.length + 1 ≤ t.length := by
              cases t with
              | nil => simp at hh
              | cons y t2 => simp
            split_ifs
            all_goals first
              | contradiction
              | exact ih t.tail _ _ _ _ _ (by omega) (by omega) (by omega) h3
          · have c3' : ¬ (c = '.' ∧ (t ++ '/' :: b).head? = some '.' ∧
                ((t ++ '/' :: b).tail = [] ∨ (t ++ '/' :: b).tail.head? = some '/')) := by
              rintro ⟨q1, q2, q3⟩
              exact c3 ⟨q1, e2.mp q2, (e3 q2).1.mp q3⟩
            rw [if_neg c3', if_neg c3]
            rw [takeWhile_append_stop _ _ hp, dropWhile_append_stop _ _ hp]
            exact ih _ _ _ _ _ _ (by omega) (by omega) (by omega) h3


theorem hasPrefix_slash_iff (s : String) : HasPrefix s "/" = true ↔ s.data.head? = some '/' := by
  unfold HasPrefix
  have : ("/" : String).data = ['/'] := rfl
  rw [this]
  cases s.data with
  | nil => simp
  | cons x t =>
    simp only [List.isPrefixOf, List.head?_cons, Option.some.injEq, Bool.and_true, beq_iff_eq]
    exact eq_comm

theorem data_ne_nil_of_ne_empty (s : String) (h : s ≠ "") : s.data ≠ [] := by
  intro hd
  apply h
  apply String.ext
  rw [hd]

theorem Join_two (cwd p : String) (h : cwd ≠ "") : Join [cwd, p] = Clean (cwd ++ "/" ++ p) := by
  have hd := data_ne_nil_of_ne_empty cwd h
  have hl : 0 < cwd.data.length := List.length_pos.mpr hd
  unfold Join
  rw [if_neg (by simp only [List.map_cons, List.map_nil, List.sum_cons, List.sum_nil]; omega)]
  congr 1
  apply String.ext
  simp only [joinBuf, List.length_nil, Nat.lt_irrefl, gt_iff_lt, false_or, ne_eq, h,
    not_false_eq_true, if_true, if_false, List.nil_append, hl, true_or, String.data_append]

theorem Clean_rooted (s : String) (h : HasPrefix s "/" = true) :
    HasPrefix (Clean s) "/" = true := by
  rw [hasPrefix_slash_iff] at h ⊢
  have hne : s ≠ "" := by
    rintro rfl
    simp at h
  unfold Clean
  rw [if_neg hne]
  simp only [h, if_true]
  have hr := cleanLoop_rooted s.data.length s.data.tail ['/'] rfl
  have hlen : (cleanLoop true s.data.length s.data.tail ['/'] 1).length ≠ 0 := by
    intro h0
    rw [List.length_eq_zero.mp h0] at hr
    simp at hr
  rw [if_neg hlen]
  exact hr


theorem cleanLoop_convention (a r : List Char) (fuel : Nat) (ha : a ≠ [])
    (hr : ∀ x ∈ r, x ≠ '/') :
    cleanLoop true (fuel + 3) ('.' :: '/' :: 'c' :: r) ('/' :: a) 1 =
      '/' :: a ++ '/' :: 'c' :: r := by
  have hlen : ('/' :: a).length ≠ 1 := by
    cases a with
    | nil => exact absurd rfl ha
    | cons x t => simp
  have ht : r.takeWhile (fun b => decide (b ≠ '/')) = r := by
    rw [List.takeWhile_eq_self_iff]
    intro x hx
    simpa using hr x hx
  have hd : r.dropWhile (fun b => decide (b ≠ '/')) = [] := by
    rw [List.dropWhile_eq_nil_iff]
    intro x hx
    simpa using hr x hx
  have s1 : cleanLoop true (fuel + 3) ('.' :: '/' :: 'c' :: r) ('/' :: a) 1 =
      cleanLoop true (fuel + 2) ('/' :: 'c' :: r) ('/' :: a) 1 := by
    simp [cleanLoop]
  have s2 : cleanLoop true (fuel + 2) ('/' :: 'c' :: r) ('/' :: a) 1 =
      cleanLoop true (fuel + 1) ('c' :: r) ('/' :: a) 1 := by
    simp [cleanLoop]
  have s3 : cleanLoop true (fuel + 1) ('c' :: r) ('/' :: a) 1 =
      cleanLoop true fuel [] ('/' :: a ++ '/' :: 'c' :: r) 1 := by
    have c1 : ¬ ('c' = '/') := by decide
    have c2 : ¬ ('c' = '.') := by decide
    simp only [cleanLoop, c1, c2, false_and, if_false, hlen, ne_eq, not_false_eq_true,
      and_self, true_or, if_true, ht, hd]
    simp
  rw [s1, s2, s3, cleanLoop_nil]

theorem Join_convention (cwd e : String) (hclean : Clean cwd = cwd)
    (habs : HasPrefix cwd "/" = true) (hroot : cwd ≠ "/") (he : ∀ x ∈ e.data, x ≠ '/') :
    Join [cwd, "./config." ++ e ++ ".json"] = cwd ++ "/config." ++ e ++ ".json" := by
  rw [hasPrefix_slash_iff] at habs
  have hne : cwd ≠ "" := by
    rintro rfl
    simp at habs
  obtain ⟨a, ha⟩ : ∃ a, cwd.data = '/' :: a := by
    cases hd : cwd.data with
    | nil => rw [hd] at habs; simp at habs
    | cons x t =>
      rw [hd] at habs
      simp only [List.head?_cons, Option.some.injEq] at habs
      exact ⟨t, by rw [habs]⟩
  have hane : a ≠ [] := by
    rintro rfl
    apply hroot
    apply String.ext
    rw [ha]
  -- the loop run on the working directory returns it unchanged
  have hout : cleanLoop true (a.length + 1) a ['/'] 1 = '/' :: a := by
    have hc := hclean
    unfold Clean at hc
    rw [if_neg hne] at hc
    simp only [ha, List.head?_cons, if_true, List.tail_cons, List.length_cons] at hc
    have hr := cleanLoop_rooted (a.length + 1) a ['/'] rfl
    have hlen : (cleanLoop true (a.length + 1) a ['/'] 1).length ≠ 0 := by
      intro h0
      rw [List.length_eq_zero.mp h0] at hr
      simp at hr
    rw [if_neg hlen] at hc
    have := congrArg String.data hc
    simpa [ha] using this
  have hp : ("./config." ++ e ++ ".json").data =
      '.' :: '/' :: 'c' :: ("onfig.".data ++ e.data ++ ".json".data) := by
    simp only [String.data_append]
    rfl
  have hr : ∀ x ∈ "onfig.".data ++ e.data ++ ".json".data, x ≠ '/' := by
    intro x hx
    simp only [List.mem_append] at hx
    rcases hx with (hx | hx) | hx
    · revert x; decide
    · exact he x hx
    · revert x; decide
  rw [Join_two cwd _ hne]
  have hdata : (cwd ++ "/" ++ ("./config." ++ e ++ ".json")).data =
      '/' :: (a ++ '/' :: '.' :: '/' :: 'c' :: ("onfig.".data ++ e.data ++ ".json".data)) := by
    rw [String.data_append, String.data_append, hp, ha]
    have : ("/" : String).data = ['/'] := rfl
    rw [this]
    simp
  have hne2 : cwd ++ "/" ++ ("./config." ++ e ++ ".json") ≠ "" := by
    intro h0
    have := congrArg String.data h0
    rw [hdata] at this
    cases this
  unfold Clean
  rw [if_neg hne2]
  simp only [hdata, List.head?_cons, if_true, List.tail_cons, List.length_cons]
  rw [cleanLoop_append_slash 1 a.length a _ ['/'] _ (a.length + 1) (_ + 3) le_rfl
    (by simp only [List.length_cons, List.length_append]; omega) (Nat.le_succ _) le_rfl]
  rw [hout, cleanLoop_convention a _ _ hane hr]
  rw [if_neg (by simp)]
  apply String.ext
  simp only [String.data_append, ha]
  simp


theorem cleanLoop_convention_root (r : List Char) (fuel : Nat) (hr : ∀ x ∈ r, x ≠ '/') :
    cleanLoop true (fuel + 3) ('.' :: '/' :: 'c' :: r) ['/'] 1 = '/' :: 'c' :: r := by
  have ht : r.takeWhile (fun b => decide (b ≠ '/')) = r := by
    rw [List.takeWhile_eq_self_iff]
    intro x hx
    simpa using hr x hx
  have hd : r.dropWhile (fun b => decide (b ≠ '/')) = [] := by
    rw [List.dropWhile_eq_nil_iff]
    intro x hx
    simpa using hr x hx
  have c1 : ¬ ('c' = '/') := by decide
  have c2 : ¬ ('c' = '.') := by decide
  have s1 : cleanLoop true (fuel + 3) ('.' :: '/' :: 'c' :: r) ['/'] 1 =
      cleanLoop true (fuel + 2) ('/' :: 'c' :: r) ['/'] 1 := by
    simp [cleanLoop]
  have s2 : cleanLoop true (fuel + 2) ('/' :: 'c' :: r) ['/'] 1 =
      cleanLoop true (fuel + 1) ('c' :: r) ['/'] 1 := by
    simp [cleanLoop]
  have s3 : cleanLoop true (fuel + 1) ('c' :: r) ['/'] 1 =
      cleanLoop true fuel [] ('/' :: 'c' :: r) 1 := by
    simp only [cleanLoop, c1, c2, false_and, if_false, ht, hd]
    simp
  rw [s1, s2, s3, cleanLoop_nil]

theorem Join_convention_root (e : String) (he : ∀ x ∈ e.data, x ≠ '/') :
    Join ["/", "./config." ++ e ++ ".json"] = "/config." ++ e ++ ".json" := by
  have hr : ∀ x ∈ "onfig.".data ++ e.data ++ ".json".data, x ≠ '/' := by
    intro x hx
    simp only [List.mem_append] at hx
    rcases hx with (hx | hx) | hx
    · revert x; decide
    · exact he x hx
    · revert x; decide
  rw [Join_two "/" _ (by decide)]
  have hdata : ("/" ++ "/" ++ ("./config." ++ e ++ ".json")).data =
      '/' :: ([] ++ '/' :: '.' :: '/' :: 'c' :: ("onfig.".data ++ e.data ++ ".json".data)) := by
    simp only [String.data_append]
    rfl
  have hne2 : "/" ++ "/" ++ ("./config." ++ e ++ ".json") ≠ "" := by
    intro h0
    have := congrArg String.data h0
    rw [hdata] at this
    cases this
  unfold Clean
  rw [if_neg hne2]
  simp only [hdata, List.head?_cons, if_true, List.tail_cons, List.length_cons]
  rw [cleanLoop_append_slash 1 0 [] _ ['/'] _ 0 (_ + 3) le_rfl
    (by simp only [List.length_cons, List.length_append, List.length_nil]; omega) le_rfl le_rfl]
  rw [cleanLoop_nil, cleanLoop_convention_root _ _ hr]
  rw [if_neg (by simp)]
  apply String.ext
  simp only [String.data_append]
  rfl

end PathLemmas

section ConfigPath

variable {σ ν : Type}

/-- Claim C1. When the `config` key holds a non-empty value starting with `/`,
`GetConfigPath` returns that value itself, whatever the working directory and
whatever the store answers for any other key (`env` included). -/
theorem GetConfigPath_absolute_override (lib : Imports σ ν) (w : World σ ν) (cwd p : String)
    (hwd : w.getwd = .ok cwd) (hp : lib.GetString w.viper keyConfig = p)
    (hne : p ≠ "") (habs : HasPrefix p "/" = true) :
    GetConfigPath lib w = .returned p := by
  unfold GetConfigPath
  rw [hwd]
  simp only [hp, ne_eq, hne, not_false_eq_true, if_true, habs]

theorem GetConfigPath_absolute_override_witness :
    GetConfigPath
        (viperLib (system [("CONFIG", "/abs/path.json"), ("ENV", "staging")] [] []))
        (envWorld "/app") =
      .returned "/abs/path.json" :=
  GetConfigPath_absolute_override _ _ "/app" "/abs/path.json" rfl (by decide) (by decide)
    (by decide)

/-- Claim C3. When the `config` key holds a non-empty value `p` that does not
start with `/`, `GetConfigPath` returns `path.Join(cwd, p)`; for a non-empty
working directory that is `path.Clean` of `cwd`, a `/` and `p`. The result is
the same in every state with this working directory and this `config` value,
so the `env` key has no influence on it. -/
theorem GetConfigPath_relative_override (lib : Imports σ ν) (w : World σ ν) (cwd p : String)
    (hwd : w.getwd = .ok cwd) (hp : lib.GetString w.viper keyConfig = p)
    (hne : p ≠ "") (hrel : HasPrefix p "/" = false) :
    GetConfigPath lib w = .returned (Join [cwd, p]) ∧
      (cwd ≠ "" → Join [cwd, p] = Clean (cwd ++ "/" ++ p)) ∧
      (∀ (lib2 : Imports σ ν) (w2 : World σ ν), w2.getwd = .ok cwd →
        lib2.GetString w2.viper keyConfig = p → GetConfigPath lib2 w2 = GetConfigPath lib w) := by
  have key : ∀ (l : Imports σ ν) (u : World σ ν), u.getwd = .ok cwd →
      l.GetString u.viper keyConfig = p → GetConfigPath l u = .returned (Join [cwd, p]) := by
    intro l u hu hl
    unfold GetConfigPath
    rw [hu]
    simp only [hl, ne_eq, hne, not_false_eq_true, if_true, hrel, Bool.false_eq_true, if_false]
  refine ⟨key lib w hwd hp, Join_two cwd p, ?_⟩
  intro lib2 w2 h2 hp2
  rw [key lib w hwd hp, key lib2 w2 h2 hp2]

theorem GetConfigPath_relative_override_witness :
    GetConfigPath
        (viperLib (system [("CONFIG", "custom/cfg.json"), ("ENV", "staging")] [] []))
        (envWorld "/app") =
      .returned "/app/custom/cfg.json" :=
  (GetConfigPath_relative_override _ _ "/app" "custom/cfg.json" rfl (by decide) (by decide)
    (by decide)).1.trans (by decide)

/-- Claim C9. For a working directory starting with `/`, `GetConfigPath`
returns a string starting with `/`, whatever the `config` and `env` keys
hold. -/
theorem GetConfigPath_is_absolute (lib : Imports σ ν) (w : World σ ν) (cwd : String)
    (hwd : w.getwd = .ok cwd) (habs : HasPrefix cwd "/" = true) :
    ∃ r : String, GetConfigPath lib w = .returned r ∧ HasPrefix r "/" = true := by
  have hne : cwd ≠ "" := by
    rintro rfl
    simp [HasPrefix] at habs
  have hjoin : ∀ p : String, HasPrefix (Join [cwd, p]) "/" = true := by
    intro p
    rw [Join_two cwd p hne]
    apply Clean_rooted
    rw [hasPrefix_slash_iff] at habs ⊢
    simp only [String.data_append]
    cases hd : cwd.data with
    | nil => rw [hd] at habs; simp at habs
    | cons x t => rw [hd] at habs; simpa using habs
  unfold GetConfigPath
  rw [hwd]
  dsimp only
  split_ifs with h1 h2
  all_goals first
    | exact ⟨_, rfl, h2⟩
    | exact ⟨_, rfl, hjoin _⟩

theorem GetConfigPath_is_absolute_witness :
    ∃ r : String,
      GetConfigPath (viperLib (system [("ENV", "staging")] [] [])) (envWorld "/app") =
        .returned r ∧ HasPrefix r "/" = true :=
  GetConfigPath_is_absolute _ _ "/app" rfl (by decide)

/-- Claim C2 fails as stated. In the root directory, with both keys empty,
`GetConfigPath` returns `/config.dev.json`, not `//config.dev.json`; and in
`/app` with `env` set to `/../prod` it returns `/app/prod.json`, not
`/app/config./../prod.json`: the path is cleaned after the join. -/
theorem GetConfigPath_convention_counterexample :
    (GetConfigPath (viperLib (system [] [] [])) (envWorld "/") = .returned "/config.dev.json" ∧
      GetConfigPath (viperLib (system [] [] [])) (envWorld "/") ≠
        .returned ("/" ++ "/config." ++ "dev" ++ ".json")) ∧
    (GetConfigPath (viperLib (system [("ENV", "/../prod")] [] [])) (envWorld "/app") =
        .returned "/app/prod.json" ∧
      GetConfigPath (viperLib (system [("ENV", "/../prod")] [] [])) (envWorld "/app") ≠
        .returned ("/app" ++ "/config." ++ "/../prod" ++ ".json")) := by
  decide

/-- Claim C2, amended. When the `config` key is empty, `GetConfigPath` returns
`path.Join(cwd, "./config." + env + ".json")`, where `env` is the value of the
`env` key, or `dev` when that is empty. When `env` holds no `/` this is
`cwd + "/config." + env + ".json"` for every working directory that is a
cleaned absolute path other than `/`, and `"/config." + env + ".json"` for the
working directory `/`. -/
theorem GetConfigPath_convention (lib : Imports σ ν) (w : World σ ν) (cwd e : String)
    (hwd : w.getwd = .ok cwd) (hcfg : lib.GetString w.viper keyConfig = "")
    (henv : lib.GetString w.viper keyEnv = e) :
    GetConfigPath lib w =
        .returned (Join [cwd, "./config." ++ (if e = "" then "dev" else e) ++ ".json"]) ∧
      ((∀ x ∈ e.data, x ≠ '/') → Clean cwd = cwd → HasPrefix cwd "/" = true → cwd ≠ "/" →
        GetConfigPath lib w =
          .returned (cwd ++ "/config." ++ (if e = "" then "dev" else e) ++ ".json")) ∧
      ((∀ x ∈ e.data, x ≠ '/') → cwd = "/" →
        GetConfigPath lib w =
          .returned ("/config." ++ (if e = "" then "dev" else e) ++ ".json")) := by
  have key : GetConfigPath lib w =
      .returned (Join [cwd, "./config." ++ (if e = "" then "dev" else e) ++ ".json"]) := by
    unfold GetConfigPath
    rw [hwd]
    simp only [hcfg, henv, ne_eq, not_true_eq_false, if_false]
  have hslash : (∀ x ∈ e.data, x ≠ '/') →
      ∀ x ∈ (if e = "" then "dev" else e).data, x ≠ '/' := by
    intro he
    split_ifs
    · decide
    · exact he
  refine ⟨key, ?_, ?_⟩
  · intro he hclean habs hroot
    rw [key, Join_convention cwd _ hclean habs hroot (hslash he)]
  · intro he hroot
    subst hroot
    rw [key, Join_convention_root _ (hslash he)]

theorem GetConfigPath_convention_witness :
    GetConfigPath (viperLib (system [("ENV", "staging")] [] [])) (envWorld "/app") =
        .returned "/app/config.staging.json" ∧
      GetConfigPath (viperLib (system [] [] [])) (envWorld "/app") =
        .returned "/app/config.dev.json" :=
  ⟨((GetConfigPath_convention _ _ "/app" "staging" rfl (by decide) (by decide)).2.1
      (by decide) (by decide) (by decide) (by decide)).trans (by decide),
    ((GetConfigPath_convention _ _ "/app" "" rfl (by decide) (by decide)).2.1
      (by decide) (by decide) (by decide) (by decide)).trans (by decide)⟩

end ConfigPath

section Store

theorem ReadInConfig_fields (os : Ambient) (v : Viper) :
    (Viper.ReadInConfig os v).1.automaticEnvApplied = v.automaticEnvApplied ∧
      (Viper.ReadInConfig os v).1.envKeyReplacer = v.envKeyReplacer ∧
      (Viper.ReadInConfig os v).1.typeByDefValue = v.typeByDefValue ∧
      (Viper.ReadInConfig os v).1.envPrefix = v.envPrefix := by
  unfold Viper.ReadInConfig
  split
  · exact ⟨rfl, rfl, rfl, rfl⟩
  · split <;> exact ⟨rfl, rfl, rfl, rfl⟩

theorem SetConfigFile_fields (path : String) (v : Viper) :
    (Viper.SetConfigFile path v).automaticEnvApplied = v.automaticEnvApplied ∧
      (Viper.SetConfigFile path v).envKeyReplacer = v.envKeyReplacer ∧
      (Viper.SetConfigFile path v).typeByDefValue = v.typeByDefValue ∧
      (Viper.SetConfigFile path v).envPrefix = v.envPrefix := by
  unfold Viper.SetConfigFile
  split <;> exact ⟨rfl, rfl, rfl, rfl⟩

theorem RegisterAlias_fields (os : Ambient) (name key : String) (v : Viper) :
    (Viper.RegisterAlias os name key v).automaticEnvApplied = v.automaticEnvApplied ∧
      (Viper.RegisterAlias os name key v).envKeyReplacer = v.envKeyReplacer ∧
      (Viper.RegisterAlias os name key v).typeByDefValue = v.typeByDefValue ∧
      (Viper.RegisterAlias os name key v).envPrefix = v.envPrefix := by
  unfold Viper.RegisterAlias
  dsimp only
  split_ifs <;> exact ⟨rfl, rfl, rfl, rfl⟩

/-- The store state in which `load` reads the `env_prefix` key. -/
theorem configured_viper (os : Ambient) (w : World Viper Value) :
    (configured (viperLib os) w).viper =
      Viper.SetDefault os keyConfig (.string "")
        (Viper.SetDefault os keyEnv (.string "")
          (Viper.RegisterAlias os "environment" "env"
            (Viper.SetTypeByDefaultValue true
              (Viper.SetEnvPrefix
                (os.ToLower (Viper.GetString os
                  (Viper.SetEnvKeyReplacer [".", "_"] (Viper.AutomaticEnv w.viper)) keyEnvPrefix))
                (Viper.SetEnvKeyReplacer [".", "_"] (Viper.AutomaticEnv w.viper)))))) :=
  rfl

theorem configured_fields (os : Ambient) (w : World Viper Value) :
    (configured (viperLib os) w).viper.automaticEnvApplied = true ∧
      (configured (viperLib os) w).viper.envKeyReplacer = some [".", "_"] ∧
      (configured (viperLib os) w).viper.typeByDefValue = true ∧
      (configured (viperLib os) w).viper.envPrefix =
        (Viper.SetEnvPrefix
          (os.ToLower (Viper.GetString os
            (Viper.SetEnvKeyReplacer [".", "_"] (Viper.AutomaticEnv w.viper)) keyEnvPrefix))
          w.viper).envPrefix := by
  rw [configured_viper]
  have h := RegisterAlias_fields os "environment" "env"
    (Viper.SetTypeByDefaultValue true
      (Viper.SetEnvPrefix
        (os.ToLower (Viper.GetString os
          (Viper.SetEnvKeyReplacer [".", "_"] (Viper.AutomaticEnv w.viper)) keyEnvPrefix))
        (Viper.SetEnvKeyReplacer [".", "_"] (Viper.AutomaticEnv w.viper))))
  simp only [Viper.SetDefault]
  refine ⟨h.1.trans ?_, h.2.1.trans ?_, h.2.2.1.trans ?_, h.2.2.2.trans ?_⟩
  all_goals
    unfold Viper.SetTypeByDefaultValue Viper.SetEnvPrefix Viper.SetEnvKeyReplacer
      Viper.AutomaticEnv
    first
      | rfl
      | (split_ifs <;> rfl)

theorem load_fields (os : Ambient) (w : World Viper Value) :
    (load (viperLib os) w).1.viper.automaticEnvApplied = true ∧
      (load (viperLib os) w).1.viper.envKeyReplacer = some [".", "_"] ∧
      (load (viperLib os) w).1.viper.typeByDefValue = true ∧
      (load (viperLib os) w).1.viper.envPrefix =
        (Viper.SetEnvPrefix
          (os.ToLower (Viper.GetString os
            (Viper.SetEnvKeyReplacer [".", "_"] (Viper.AutomaticEnv w.viper)) keyEnvPrefix))
          w.viper).envPrefix := by
  have hc := configured_fields os w
  have hb : ∀ path, (beforeRead (viperLib os) w path).viper =
      Viper.SetConfigFile path (configured (viperLib os) w).viper := fun _ => rfl
  have hr : ∀ path,
      (Viper.ReadInConfig os (beforeRead (viperLib os) w path).viper).1.automaticEnvApplied = true ∧
      (Viper.ReadInConfig os (beforeRead (viperLib os) w path).viper).1.envKeyReplacer =
        some [".", "_"] ∧
      (Viper.ReadInConfig os (beforeRead (viperLib os) w path).viper).1.typeByDefValue = true ∧
      (Viper.ReadInConfig os (beforeRead (viperLib os) w path).viper).1.envPrefix =
        (Viper.SetEnvPrefix
          (os.ToLower (Viper.GetString os
            (Viper.SetEnvKeyReplacer [".", "_"] (Viper.AutomaticEnv w.viper)) keyEnvPrefix))
          w.viper).envPrefix := by
    intro path
    have h1 := ReadInConfig_fields os (beforeRead (viperLib os) w path).viper
    have h2 := SetConfigFile_fields path (configured (viperLib os) w).viper
    rw [hb] at h1 ⊢
    exact ⟨h1.1.trans (h2.1.trans hc.1), h1.2.1.trans (h2.2.1.trans hc.2.1),
      h1.2.2.1.trans (h2.2.2.1.trans hc.2.2.1), h1.2.2.2.trans (h2.2.2.2.trans hc.2.2.2)⟩
  rw [load_eq]
  cases GetConfigPath (viperLib os) (configured (viperLib os) w) with
  | panicked err => exact hc
  | returned path =>
    dsimp only
    cases h : ((viperLib os).ReadInConfig (beforeRead (viperLib os) w path).viper).2 with
    | some err => exact hr path
    | none => exact hr path


theorem getEnv_of_lookup (os : Ambient) (v : Viper) (oldnew : List String) (name s : String)
    (hrep : v.envKeyReplacer = some oldnew)
    (henv : os.LookupEnv (Replace oldnew name) = some s) (hs : s ≠ "") :
    v.getEnv os name = some s := by
  unfold Viper.getEnv
  simp only [hrep, henv, ne_eq, hs, not_false_eq_true, or_true, if_true]

theorem find_of_env (os : Ambient) (v : Viper) (oldnew : List String) (key s : String)
    (hauto : v.automaticEnvApplied = true) (hrep : v.envKeyReplacer = some oldnew)
    (hfree : v.unshadowed os key)
    (henv : os.LookupEnv (v.envName os oldnew key) = some s) (hs : s ≠ "") :
    v.find os (os.ToLower key) = .string s := by
  obtain ⟨h1, h2, h3⟩ := hfree
  have hg : v.getEnv os (v.mergeWithEnvPrefix os (v.realKey (os.ToLower key))) = some s :=
    getEnv_of_lookup os v oldnew _ s hrep henv hs
  unfold Viper.find
  rw [if_neg h1]
  simp only [h2, hg, hauto, if_true, if_neg h3]

theorem Get_of_find_string (os : Ambient) (v : Viper) (key s : String)
    (h : v.find os (os.ToLower key) = .string s) : v.Get os key = .string s := by
  unfold Viper.Get
  simp only [h]
  split_ifs
  · cases searchMap v.defaults (Split (os.ToLower key)) <;> rfl
  · rfl

/-- Claim C8 fails as stated. With prefix `nhm` installed by a successful load
and `NHM_FOO` set to the empty string, `GetString("foo")` is the value `baz`
of the file, not the value of the variable; and with `NHM_ENVIRONMENT` set to
`staging`, `GetString("environment")` is empty, because the alias makes the
store look up `NHM_ENV`. -/
theorem env_override_counterexample :
    ((Load (viperLib (system [("ENV_PREFIX", "nhm"), ("NHM_FOO", "")]
          [("/app/config.dev.json", fooBaz)] [])) exampleStart).2 = .returned { addr := 0 } ∧
      (Load (viperLib (system [("ENV_PREFIX", "nhm"), ("NHM_FOO", "")]
          [("/app/config.dev.json", fooBaz)] [])) exampleStart).1.viper.envPrefix = "nhm" ∧
      (system [("ENV_PREFIX", "nhm"), ("NHM_FOO", "")]
          [("/app/config.dev.json", fooBaz)] []).LookupEnv "NHM_FOO" = some "" ∧
      Viper.GetString (system [("ENV_PREFIX", "nhm"), ("NHM_FOO", "")]
          [("/app/config.dev.json", fooBaz)] [])
        (Load (viperLib (system [("ENV_PREFIX", "nhm"), ("NHM_FOO", "")]
          [("/app/config.dev.json", fooBaz)] [])) exampleStart).1.viper "foo" = "baz") ∧
    ((Load (viperLib (system [("ENV_PREFIX", "nhm"), ("NHM_ENVIRONMENT", "staging")]
          [("/app/config.dev.json", fooBaz)] [])) exampleStart).2 = .returned { addr := 0 } ∧
      (system [("ENV_PREFIX", "nhm"), ("NHM_ENVIRONMENT", "staging")]
          [("/app/config.dev.json", fooBaz)] []).LookupEnv "NHM_ENVIRONMENT" = some "staging" ∧
      Viper.GetString (system [("ENV_PREFIX", "nhm"), ("NHM_ENVIRONMENT", "staging")]
          [("/app/config.dev.json", fooBaz)] [])
        (Load (viperLib (system [("ENV_PREFIX", "nhm"), ("NHM_ENVIRONMENT", "staging")]
          [("/app/config.dev.json", fooBaz)] [])) exampleStart).1.viper "environment" = "") := by
  decide

/-- Claim C8, amended. After a full load that returned, with a non-empty
prefix installed, take a key that neither the alias table nor a value stored
by `Set` answers or hides. If the environment variable named by the prefix,
`_` and the stored name of the key (lower-cased, aliases resolved), the whole
upper-cased and with every `.` replaced by `_`, is set to a non-empty `s`,
then `GetString` of the key is `s`, whatever the loaded file holds. -/
theorem env_override_precedence (os : Ambient) (w w1 : World Viper Value) (c : Config)
    (key s : String)
    (hload : load (viperLib os) w = (w1, .returned c))
    (hfree : w1.viper.unshadowed os key)
    (hpre : w1.viper.envPrefix ≠ "")
    (henv : os.LookupEnv (Replace [".", "_"]
      (os.ToUpper (w1.viper.envPrefix ++ "_" ++ w1.viper.realKey (os.ToLower key)))) = some s)
    (hs : s ≠ "") :
    (viperLib os).GetString w1.viper key = s ∧
      ∀ content : ValueMap, Viper.GetString os { w1.viper with config := content } key = s := by
  have hf := load_fields os w
  rw [hload] at hf
  obtain ⟨hauto, hrep, _, _⟩ := hf
  have hname : w1.viper.envName os [".", "_"] key =
      Replace [".", "_"]
        (os.ToUpper (w1.viper.envPrefix ++ "_" ++ w1.viper.realKey (os.ToLower key))) := by
    unfold Viper.envName Viper.mergeWithEnvPrefix
    rw [if_pos hpre]
  have key_fact : ∀ content : ValueMap,
      Viper.GetString os { w1.viper with config := content } key = s := by
    intro content
    have hfind := find_of_env os { w1.viper with config := content } [".", "_"] key s
      hauto hrep hfree (by rw [← hname] at henv; exact henv) hs
    unfold Viper.GetString
    rw [Get_of_find_string os _ key s hfind]
    rfl
  refine ⟨?_, key_fact⟩
  have := key_fact w1.viper.config
  exact this

theorem env_override_precedence_witness :
    (viperLib exampleSystem).GetString (load (viperLib exampleSystem) exampleStart).1.viper
        "foo" = "bar" ∧
      exampleSystem.LookupEnv "NHM_FOO" = some "bar" ∧
      fooBaz.lookup "foo" = some (.string "baz") :=
  ⟨(env_override_precedence exampleSystem exampleStart
      (load (viperLib exampleSystem) exampleStart).1 { addr := 0 } "foo" "bar"
      (Prod.ext rfl (by decide)) (by unfold Viper.unshadowed; decide) (by decide) (by decide)
      (by decide)).1,
    by decide, by decide⟩


theorem splitAux_ne_nil (sep : Char) : ∀ (cs cur : List Char), splitAux sep cs cur ≠ [] := by
  intro cs
  induction cs with
  | nil => intro cur; simp [splitAux]
  | cons c t ih =>
    intro cur
    unfold splitAux
    split_ifs
    · simp
    · exact ih _

theorem Split_ne_nil (s : String) : Split s ≠ [] :=
  splitAux_ne_nil '.' s.data []

theorem searchMap_empty (path : List String) (h : path ≠ []) : searchMap .empty path = .nil := by
  cases path with
  | nil => exact absurd rfl h
  | cons k rest => simp [searchMap, ValueMap.lookup]

theorem shadowedInDeepMapFrom_empty (path : List String) :
    ∀ n i : Nat, shadowedInDeepMapFrom path .empty n i = "" := by
  intro n
  induction n with
  | zero => intro i; rfl
  | succ n ih =>
    intro i
    unfold shadowedInDeepMapFrom
    cases h : path.take i with
    | nil => simp only [searchMap]; exact ih _
    | cons k rest => simp [searchMap, ValueMap.lookup]

theorem isPathShadowedInDeepMap_empty (path : List String) :
    isPathShadowedInDeepMap path .empty = "" :=
  shadowedInDeepMapFrom_empty path _ _

theorem prefixLoop_empty (search : ValueMap → List String → Value) (lower : String → String)
    (path : List String) : ∀ i : Nat, prefixLoop search lower .empty path i = .nil := by
  intro i
  induction i with
  | zero => rfl
  | succ i ih =>
    unfold prefixLoop
    simp only [ValueMap.lookup]
    exact ih

theorem findInConfig_fresh (os : Ambient) (v : Viper) (path : List String) (hp : path ≠ [])
    (hc : v.config = .empty) (hd : v.defaults = .empty) : v.findInConfig os path = .nil := by
  unfold Viper.findInConfig
  rw [hc, hd]
  have h1 : searchMapWithPathPrefixes os.ToLower (path.length + 1) .empty path = .nil := by
    unfold searchMapWithPathPrefixes
    rw [if_neg hp]
    exact prefixLoop_empty _ _ _ _
  simp only [h1, isPathShadowedInDeepMap_empty, ne_eq, not_true_eq_false, and_false, if_false]
  exact searchMap_empty path hp

/-- On a fresh instance with `AutomaticEnv` and an environment key replacer,
`GetString` answers from the environment alone. -/
theorem GetString_fresh (os : Ambient) (oldnew : List String) (key : String) :
    Viper.GetString os (Viper.SetEnvKeyReplacer oldnew (Viper.AutomaticEnv New)) key =
      (os.LookupEnv (Replace oldnew (os.ToUpper (os.ToLower key)))).getD "" := by
  have hsp := Split_ne_nil (os.ToLower key)
  have hfind : Viper.find os (Viper.SetEnvKeyReplacer oldnew (Viper.AutomaticEnv New))
      (os.ToLower key) =
      match os.LookupEnv (Replace oldnew (os.ToUpper (os.ToLower key))) with
      | some val => if val ≠ "" then .string val else .nil
      | none => .nil := by
    unfold Viper.find
    simp only [Viper.SetEnvKeyReplacer, Viper.AutomaticEnv, New, castMapStringToMapInterface,
      isPathShadowedInDeepMap_empty, ne_eq, not_true_eq_false, and_false, if_false,
      Viper.realKey, realKeyAux, List.lookup, searchMap_empty _ hsp, if_true,
      Viper.getEnv, Viper.mergeWithEnvPrefix, List.length_nil, Bool.false_eq_true, false_or]
    have hcfg : ∀ v : Viper, v.config = .empty → v.defaults = .empty →
        (if (Split (os.ToLower key)).length > 1 ∧
            v.isPathShadowedInAutoEnv os (Split (os.ToLower key)) ≠ "" then Value.nil
          else v.findInConfig os (Split (os.ToLower key))) = Value.nil := by
      intro v h1 h2
      split_ifs
      · rfl
      · exact findInConfig_fresh os v _ hsp h1 h2
    cases hl : os.LookupEnv (Replace oldnew (os.ToUpper (os.ToLower key))) with
    | none => exact hcfg _ rfl rfl
    | some val =>
      by_cases hv : val = ""
      · simp only [hv, not_true_eq_false, if_false]
        exact hcfg _ rfl rfl
      · simp only [hv, not_false_eq_true, if_true]
  unfold Viper.GetString Viper.Get
  simp only [hfind]
  cases hl : os.LookupEnv (Replace oldnew (os.ToUpper (os.ToLower key))) with
  | none => rfl
  | some val =>
    by_cases hv : val = ""
    · simp [hv, ToString]
    · simp [hv, ToString, Viper.SetEnvKeyReplacer, Viper.AutomaticEnv, New]

/-- Claim C10 fails as stated. In one environment (`ENV_PREFIX=nhm`), `Load`
followed by `Reload` installs the prefix `other` when the file read by the
`Load` holds `{"env_prefix": "other"}` and keeps `nhm` when it holds
`{"foo": "baz"}`: the `Reload` reads `env_prefix` from a store that already
has the prefix `nhm` and the content of the file. With `NHM_ENV_PREFIX=zzz` in
the environment the `Reload` installs `zzz`, which the first load, run
without a prefix, does not see. -/
theorem reload_prefix_counterexample :
    ((Load (viperLib (system [("ENV_PREFIX", "nhm")]
          [("/app/config.dev.json", prefixOther)] [])) exampleStart).1.viper.envPrefix = "nhm" ∧
      (Reload (viperLib (system [("ENV_PREFIX", "nhm")]
          [("/app/config.dev.json", prefixOther)] []))
        (Load (viperLib (system [("ENV_PREFIX", "nhm")]
          [("/app/config.dev.json", prefixOther)] [])) exampleStart).1).1.viper.envPrefix =
        "other" ∧
      (Reload (viperLib (system [("ENV_PREFIX", "nhm")]
          [("/app/config.dev.json", fooBaz)] []))
        (Load (viperLib (system [("ENV_PREFIX", "nhm")]
          [("/app/config.dev.json", fooBaz)] [])) exampleStart).1).1.viper.envPrefix =
        "nhm") ∧
    ((Load (viperLib (system [("ENV_PREFIX", "nhm"), ("NHM_ENV_PREFIX", "zzz")]
          [("/app/config.dev.json", fooBaz)] [])) exampleStart).1.viper.envPrefix = "nhm" ∧
      (Reload (viperLib (system [("ENV_PREFIX", "nhm"), ("NHM_ENV_PREFIX", "zzz")]
          [("/app/config.dev.json", fooBaz)] []))
        (Load (viperLib (system [("ENV_PREFIX", "nhm"), ("NHM_ENV_PREFIX", "zzz")]
          [("/app/config.dev.json", fooBaz)] [])) exampleStart).1).1.viper.envPrefix =
        "zzz") := by
  decide

/-- Claim C10, amended. In every full load the prefix handed to `SetEnvPrefix`
is the lower-cased value of `env_prefix` read from the incoming store right
after `AutomaticEnv` and `SetEnvKeyReplacer`, before that load's own
`SetEnvPrefix` and `ReadInConfig`. In the full load run from the start-up
state the store then has no prefix and no file content: the prefix installed
is the lower-cased value of the environment variable named by `env_prefix`
upper-cased, empty when it is unset, whatever config files exist. -/
theorem first_load_prefix (os : Ambient) (getwd : Except GoError String) :
    (∀ w : World Viper Value, ∃ rest : List (ViperCall Value),
      (load (viperLib os) w).1.trace = w.trace ++
        [.AutomaticEnv, .SetEnvKeyReplacer [".", "_"],
          .SetEnvPrefix (os.ToLower (Viper.GetString os
            (Viper.SetEnvKeyReplacer [".", "_"] (Viper.AutomaticEnv w.viper)) keyEnvPrefix))]
          ++ rest) ∧
    (load (viperLib os) (startWorld getwd)).1.viper.envPrefix =
      os.ToLower ((os.LookupEnv
        (Replace [".", "_"] (os.ToUpper (os.ToLower keyEnvPrefix)))).getD "") ∧
    (∀ (files : String → Except GoError ValueMap) (writes : String → Option GoError),
      (load (viperLib { os with ReadConfig := files, WriteConfig := writes })
          (startWorld getwd)).1.viper.envPrefix =
        (load (viperLib os) (startWorld getwd)).1.viper.envPrefix) := by
  have hfirst : ∀ o : Ambient, (load (viperLib o) (startWorld getwd)).1.viper.envPrefix =
      o.ToLower ((o.LookupEnv
        (Replace [".", "_"] (o.ToUpper (o.ToLower keyEnvPrefix)))).getD "") := by
    intro o
    rw [(load_fields o (startWorld getwd)).2.2.2]
    have : (startWorld getwd).viper = New := rfl
    rw [this, GetString_fresh]
    unfold Viper.SetEnvPrefix
    split_ifs with h
    · rfl
    · simp only [ne_eq, not_not] at h
      rw [h]
      rfl
  refine ⟨?_, hfirst os, ?_⟩
  · intro w
    have htr := configured_trace (viperLib os) w
    rw [load_eq]
    cases GetConfigPath (viperLib os) (configured (viperLib os) w) with
    | panicked err =>
      refine ⟨[.SetTypeByDefaultValue true, .RegisterAlias "environment" "env",
        .SetDefault keyEnv "", .SetDefault keyConfig ""], ?_⟩
      dsimp only
      rw [htr]
      simp
      rfl
    | returned path =>
      have hb : (beforeRead (viperLib os) w path).trace =
          (configured (viperLib os) w).trace ++ [.SetConfigFile path] := rfl
      refine ⟨[.SetTypeByDefaultValue true, .RegisterAlias "environment" "env",
        .SetDefault keyEnv "", .SetDefault keyConfig "", .SetConfigFile path,
        .ReadInConfig], ?_⟩
      dsimp only
      cases ((viperLib os).ReadInConfig (beforeRead (viperLib os) w path).viper).2 with
      | some err =>
        dsimp only
        rw [hb, htr]
        simp
        rfl
      | none =>
        dsimp only
        rw [hb, htr]
        simp
        rfl
  · intro files writes
    rw [hfirst, hfirst]

theorem searchMap_deepSearchSet (last : String) (val : Value) :
    ∀ (init : List String) (m : ValueMap),
      searchMap (deepSearchSet m init last val) (init ++ [last]) = val := by
  intro init
  induction init with
  | nil =>
    intro m
    simp [deepSearchSet, ValueMap.set, searchMap, ValueMap.lookup]
  | cons k rest ih =>
    intro m
    have hne : rest ++ [last] ≠ [] := by simp
    have step : ∀ inner : ValueMap,
        searchMap (m.set k (.object (deepSearchSet inner rest last val)))
          (k :: (rest ++ [last])) = val := by
      intro inner
      simp only [ValueMap.set, searchMap, ValueMap.lookup, if_true, if_neg hne]
      exact ih inner
    rw [List.cons_append]
    unfold deepSearchSet
    split
    · exact step _
    · exact step _

theorem WriteConfig_store (os : Ambient) (v : Viper) : (Viper.WriteConfig os v).1 = v := by
  unfold Viper.WriteConfig
  split <;> rfl

/-- On the viper instance, a read of a key that no alias hides returns the
string just stored under it by `Set`. -/
theorem Get_Set_string (os : Ambient) (v : Viper) (key s : String)
    (halias : ¬ ((Split (os.ToLower key)).length > 1 ∧
      isPathShadowedInDeepMap (Split (os.ToLower key))
        (castMapStringToMapInterface v.aliases) ≠ ""))
    (hlow : os.ToLower ((Split (v.realKey (os.ToLower key))).getLastD "") =
      (Split (v.realKey (os.ToLower key))).getLastD "") :
    Viper.Get os (Viper.Set os key (.string s) v) key = .string s := by
  apply Get_of_find_string
  have hsp := Split_ne_nil (v.realKey (os.ToLower key))
  have hpath : (Split (v.realKey (os.ToLower key))).dropLast ++
      [(Split (v.realKey (os.ToLower key))).getLastD ""] = Split (v.realKey (os.ToLower key)) := by
    cases hq : Split (v.realKey (os.ToLower key)) with
    | nil => exact absurd hq hsp
    | cons x t =>
      conv_rhs => rw [← List.dropLast_append_getLast (List.cons_ne_nil x t)]
      congr 2
  have hov : searchMap (Viper.Set os key (.string s) v).override
      (Split (v.realKey (os.ToLower key))) = .string s := by
    unfold Viper.Set
    simp only [toCaseInsensitiveValue, hlow]
    have h := searchMap_deepSearchSet ((Split (v.realKey (os.ToLower key))).getLastD "")
      (.string s) (Split (v.realKey (os.ToLower key))).dropLast v.override
    rw [hpath] at h
    exact h
  have hreal : (Viper.Set os key (.string s) v).realKey (os.ToLower key) =
      v.realKey (os.ToLower key) := rfl
  have hal : (Viper.Set os key (.string s) v).aliases = v.aliases := rfl
  unfold Viper.find
  rw [hal, if_neg halias]
  simp only [hreal, hov]

/-- Claim C7 fails as stated. After a `Load` of `{"foo": "baz"}`,
`Save("foo", nil)` returns `nil` and a read of `foo` still gives `baz`;
`Save("environment.x", "v")` leaves `environment.x` reading `nil`, hidden by
the alias; and a saved map with the key `Port` reads back with the key
`port`. -/
theorem Save_readback_counterexample :
    ((Config.Save (viperLib (plainSystem true)) { addr := 0 } "foo" Value.nil
        (Load (viperLib (plainSystem true)) exampleStart).1).2 = none ∧
      Viper.Get (plainSystem true)
        (Config.Save (viperLib (plainSystem true)) { addr := 0 } "foo" Value.nil
          (Load (viperLib (plainSystem true)) exampleStart).1).1.viper "foo" =
        .string "baz") ∧
    Viper.Get (plainSystem true)
      (Config.Save (viperLib (plainSystem true)) { addr := 0 } "environment.x" (.string "v")
        (Load (viperLib (plainSystem true)) exampleStart).1).1.viper "environment.x" =
      .nil ∧
    Viper.Get (plainSystem true)
      (Config.Save (viperLib (plainSystem true)) { addr := 0 } "server"
        (.object (.entry "Port" (.string "1") .empty))
        (Load (viperLib (plainSystem true)) exampleStart).1).1.viper "server" =
      .object (.entry "port" (.string "1") .empty) := by
  decide

/-- Claim C7, amended. For any store, key and value, `Save` first sets the key
in the store and then writes the store out, and makes no other call. It
returns `nil` exactly when the write returns `nil`; when the write fails with
`err` it returns the error with message
`"failed to write changes to config file: "` followed by the message of
`err`, wrapping `err`; `cfg` is untouched. On the viper instance the store
after the call is, whatever the write returned, the store in which the key
was set: nothing is rolled back. There, when the value is a string and the
key is not a dotted key hidden by an alias (its stored name ending in a
lower-case segment, as viper keeps names), a read of the key after the call
returns that string. -/
theorem Save_sets_then_persists {σ ν : Type} (lib : Imports σ ν) (c : Config) (key : String)
    (val : ν) (w : World σ ν) :
    ((c.Save lib key val w).1.trace = w.trace ++ [.Set key val, .WriteConfig] ∧
      (c.Save lib key val w).1.viper = (lib.WriteConfig (lib.Set key val w.viper)).1 ∧
      ((c.Save lib key val w).2 = none ↔
        (lib.WriteConfig (lib.Set key val w.viper)).2 = none) ∧
      (∀ err : GoError, (lib.WriteConfig (lib.Set key val w.viper)).2 = some err →
        (c.Save lib key val w).2 =
            some (Errorf "failed to write changes to config file: " err) ∧
          (Errorf "failed to write changes to config file: " err).Error =
            "failed to write changes to config file: " ++ err.Error ∧
          (Errorf "failed to write changes to config file: " err).Unwrap = some err) ∧
      (c.Save lib key val w).1.cfg = w.cfg) ∧
    (∀ (os : Ambient) (u : World Viper Value) (stored : Value),
      (c.Save (viperLib os) key stored u).1.viper = Viper.Set os key stored u.viper) ∧
    (∀ (os : Ambient) (u : World Viper Value) (s : String),
      ¬ ((Split (os.ToLower key)).length > 1 ∧
        isPathShadowedInDeepMap (Split (os.ToLower key))
          (castMapStringToMapInterface u.viper.aliases) ≠ "") →
      os.ToLower ((Split (u.viper.realKey (os.ToLower key))).getLastD "") =
        (Split (u.viper.realKey (os.ToLower key))).getLastD "" →
      Viper.Get os (c.Save (viperLib os) key (.string s) u).1.viper key = .string s) := by
  have hstore : ∀ (os : Ambient) (u : World Viper Value) (stored : Value),
      (c.Save (viperLib os) key stored u).1.viper = Viper.Set os key stored u.viper := by
    intro os u stored
    rw [(Save_calls (viperLib os) c key stored u).2.1]
    exact WriteConfig_store os _
  refine ⟨Save_calls lib c key val w, hstore, ?_⟩
  intro os u s halias hlow
  rw [hstore]
  exact Get_Set_string os u.viper key s halias hlow

theorem Save_sets_then_persists_witness :
    (Config.Save (viperLib (plainSystem false)) { addr := 0 } "foo" (.string "bar")
        (Load (viperLib (plainSystem false)) exampleStart).1).2 =
        some (Errorf "failed to write changes to config file: "
          (.errorString "open /app/config.dev.json: permission denied")) ∧
      Viper.Get (plainSystem false)
        (Config.Save (viperLib (plainSystem false)) { addr := 0 } "foo" (.string "bar")
          (Load (viperLib (plainSystem false)) exampleStart).1).1.viper "foo" =
        .string "bar" ∧
      Viper.Get (plainSystem false) (Load (viperLib (plainSystem false)) exampleStart).1.viper
        "foo" = .string "baz" :=
  ⟨((Save_sets_then_persists (viperLib (plainSystem false)) { addr := 0 } "foo" (.string "bar")
      (Load (viperLib (plainSystem false)) exampleStart).1).1.2.2.2.1 _ (by decide)).1,
    (Save_sets_then_persists (viperLib (plainSystem false)) { addr := 0 } "foo" (.string "bar")
      (Load (viperLib (plainSystem false)) exampleStart).1).2.2 (plainSystem false)
      (Load (viperLib (plainSystem false)) exampleStart).1 "bar" (by decide) (by decide),
    by decide⟩

end Store
end SogkoConfig
